import Mathlib

/-!
Shallow embedding of the room/session server in `src/server/index.js`
(two-participant quiz rooms over socket events).

The server keeps three global `Map`s — `rooms`, `ownerSessions`,
`transitioningOwners` — and per-room state consisting of a player list,
a quiz state (scores / answers keyed by connection id) and a learning
(navigation) state.  Each socket event handler is translated into a pure
function from a `Socket` record (the ad-hoc fields `socket.id`,
`socket.roomId`, `socket.playerName`, `socket.role`) and a `ServerState`
to a new `ServerState`, the possibly-updated `Socket`, and the ordered
list of outbound `SAction`s the handler performs (emits, forced
disconnects, room deletions).

JavaScript `Map`s and plain objects used as string-keyed dictionaries
are embedded as association lists with the usual map semantics
(`alookup` / `aset` / `aerase`); `aset` overwrites an existing key in
place (preserving its position, as JS objects do) and appends otherwise.
JS number values that can become `NaN` (the `+=` on a possibly-missing
score key in `revealAnswers`) are embedded as `Option Int`, `none`
standing for `NaN`.  JS string truthiness (`!s` is true exactly for the
empty string) is made explicit.  Timer callbacks (`setTimeout`) are
embedded as explicit events: the grace-window callback installed by
`proceed_to_mode_select` is the function `graceFire`, whose guard on the
presence of the `transitioningOwners` record models `clearTimeout`
(every code path that clears the timer also deletes or replaces the
record).
-/

/-- First-match lookup in a string-keyed association list
(JS `map.get(k)` / `obj[k]`). -/
def alookup {α : Type} (k : String) : List (String × α) → Option α
  | [] => none
  | e :: rest => if e.1 = k then some e.2 else alookup k rest

/-- `map.set(k, v)` / `obj[k] = v`: overwrite the first entry for `k`
in place, else append. -/
def aset {α : Type} (k : String) (v : α) : List (String × α) → List (String × α)
  | [] => [(k, v)]
  | e :: rest => if e.1 = k then (k, v) :: rest else e :: aset k v rest

/-- `map.delete(k)` / `delete obj[k]`: remove the entries for `k`. -/
def aerase {α : Type} (k : String) : List (String × α) → List (String × α)
  | [] => []
  | e :: rest => if e.1 = k then aerase k rest else e :: aerase k rest

/-- The keys of an association list (JS `Object.keys`). -/
def akeys {α : Type} (l : List (String × α)) : List String :=
  l.map Prod.fst

/-- JS truthiness of a nullable string field: `null` and `""` are falsy. -/
def strTruthy : Option String → Bool
  | none => false
  | some s => !(s = "" : Bool)

/-- Mutate the first element satisfying `p` (JS `find` + in-place mutation
of the found object). -/
def updateFirst {α : Type} (p : α → Bool) (f : α → α) : List α → List α
  | [] => []
  | x :: xs => if p x then f x :: xs else x :: updateFirst p f xs

/-- JS `findIndex` + `splice(idx, 1)`: return the first element satisfying
`p` together with the list with that element removed. -/
def extractFirst {α : Type} (p : α → Bool) : List α → Option (α × List α)
  | [] => none
  | x :: xs =>
    if p x then some (x, xs)
    else (extractFirst p xs).map (fun r => (r.1, x :: r.2))

/-- A participant entry (`{id, name, role, ready}` in `room.players`). -/
structure Player where
  id : String
  name : String
  role : String
  ready : Bool
deriving DecidableEq, Repr

/-- A recorded answer (`{option, timeLeft, timestamp}`; the `timestamp`
field is written but never read by the server, so it is omitted). -/
structure Answer where
  option : Int
  timeLeft : Int
deriving DecidableEq, Repr

/-- A quiz question; only the fields the server reads are kept. -/
structure Question where
  correctAnswer : Int
  explanation : String
deriving DecidableEq, Repr

/-- `room.quizState`.  Score values are `Option Int` with `none` for the
JS `NaN` that `+=` produces on a missing key. -/
structure QuizState where
  isActive : Bool
  currentQuestion : Option Question
  scores : List (String × Option Int)
  answers : List (String × Answer)
  round : Nat
deriving DecidableEq, Repr

/-- `room.learningState`. -/
structure LearningState where
  currentCategory : String
  scrollPosition : List (String × Int)
  isActive : Bool
  selectedStory : List (String × Int)
deriving DecidableEq, Repr

/-- A room entry in the `rooms` map. -/
structure Room where
  players : List Player
  quizState : QuizState
  learningState : LearningState
deriving DecidableEq, Repr

/-- An `ownerSessions` entry (`{currentRoomId, previousRoomIds}`). -/
structure OwnerSession where
  currentRoomId : String
  previousRoomIds : List String
deriving DecidableEq, Repr

/-- A `transitioningOwners` entry.  `ownerName` is copied from
`socket.playerName`, hence nullable; the `timestamp` and the timer
handle are not observable state (the pending timer is modelled by the
record's presence together with `graceFire`'s guard). -/
structure TransitionInfo where
  ownerName : Option String
deriving DecidableEq, Repr

/-- The three global maps of the server. -/
structure ServerState where
  rooms : List (String × Room)
  ownerSessions : List (String × OwnerSession)
  transitioningOwners : List (String × TransitionInfo)
deriving DecidableEq, Repr

/-- The ad-hoc connection-identity fields the server stores on a socket. -/
structure Socket where
  id : String
  roomId : Option String
  playerName : Option String
  role : Option String
deriving DecidableEq, Repr

/-- Observable outbound effects of a handler, in program order. -/
inductive SAction where
  | emitSelf (event : String)
  | emitRoomOther (roomId : String) (event : String)
  | emitRoomAll (roomId : String) (event : String)
  | forceDisconnect (socketId : String)
  | deleteRoom (roomId : String)
deriving DecidableEq, Repr

/-- The quiz state a freshly created room starts with. -/
def initialQuizState : QuizState :=
  { isActive := false, currentQuestion := none, scores := [], answers := [], round := 0 }

/-- The learning state a freshly created room starts with. -/
def initialLearningState : LearningState :=
  { currentCategory := "menu", scrollPosition := [], isActive := false, selectedStory := [] }

/-- A freshly created room (both the `join_room` creation and the
recovery-mode recreation in `mode_select_join` build this shape; the
extra `id` / `mode` / `createdAt` fields of the recovery path are never
read and are omitted). -/
def initialRoom : Room :=
  { players := [], quizState := initialQuizState, learningState := initialLearningState }

/-- `handleOwnerRoomCreation(ownerName, newRoomId, socket)`: close the
Owner's previous room (notify it, force-disconnect its guests, delete
it, append it to history) before recording the new room id. -/
def handleOwnerRoomCreation (ownerName newRoomId : String) (st : ServerState) :
    ServerState × List SAction :=
  let existingSession := alookup ownerName st.ownerSessions
  let step : ServerState × List SAction × List String :=
    match existingSession with
    | some s =>
      if s.currentRoomId ≠ "" ∧ s.currentRoomId ≠ newRoomId then
        match alookup s.currentRoomId st.rooms with
        | some oldRoom =>
          let guestDiscs :=
            (oldRoom.players.filter (fun p => p.role == "guest")).map
              (fun p => SAction.forceDisconnect p.id)
          ({ st with rooms := aerase s.currentRoomId st.rooms },
            [SAction.emitRoomOther s.currentRoomId "room_closed_by_owner"]
              ++ guestDiscs ++ [SAction.deleteRoom s.currentRoomId],
            s.previousRoomIds ++ [s.currentRoomId])
        | none => (st, [], s.previousRoomIds)
      else (st, [], s.previousRoomIds)
    | none => (st, [], [])
  match step with
  | (st1, acts, prevIds) =>
    let newSession : OwnerSession :=
      { currentRoomId := newRoomId, previousRoomIds := prevIds }
    ({ st1 with ownerSessions := aset ownerName newSession st1.ownerSessions }, acts)

/-- The owner-registration step at the top of `join_room` (lines 89-91). -/
def joinOwnerStep (playerName roomId role : String) (st : ServerState) :
    ServerState × List SAction :=
  if role = "owner" then handleOwnerRoomCreation playerName roomId st else (st, [])

/-- The `join_room` handler. -/
def joinRoom (sock : Socket) (roomId playerName role : String) (st : ServerState) :
    ServerState × Socket × List SAction :=
  let hoc := joinOwnerStep playerName roomId role st
  let st1 := hoc.1
  let acts1 := hoc.2
  let st2 :=
    match alookup roomId st1.rooms with
    | some _ => st1
    | none => { st1 with rooms := aset roomId initialRoom st1.rooms }
  match alookup roomId st2.rooms with
  | none => (st2, sock, acts1)  -- unreachable: the room was just ensured
  | some room =>
    let dupPred : Player → Bool := fun p => p.name == playerName && p.role == role
    let room1 :=
      match room.players.find? dupPred with
      | some ep =>
        let qs1 := { room.quizState with scores := aerase ep.id room.quizState.scores }
        { room with players := room.players.filter (fun p => !dupPred p), quizState := qs1 }
      | none => room
    let st3 := { st2 with rooms := aset roomId room1 st2.rooms }
    if room1.players.length ≥ 2 then
      (st3, sock, acts1 ++ [SAction.emitSelf "room_full"])
    else
      let storedRole := if role = "" then "guest" else role
      let newPlayer : Player :=
        { id := sock.id, name := playerName, role := storedRole, ready := false }
      let qs2 := { room1.quizState with scores := aset sock.id (some 0) room1.quizState.scores }
      let room2 : Room := { room1 with players := room1.players ++ [newPlayer], quizState := qs2 }
      let st4 := { st3 with rooms := aset roomId room2 st3.rooms }
      let sock2 : Socket :=
        { sock with roomId := some roomId, playerName := some playerName, role := some storedRole }
      let matchActs : List SAction :=
        if room2.players.length = 2 then [SAction.emitRoomAll roomId "match_found"] else []
      let acts :=
        acts1 ++ [SAction.emitSelf "room_joined", SAction.emitRoomAll roomId "room_status",
          SAction.emitSelf "learning_story_snapshot"] ++ matchActs
      (st4, sock2, acts)

/-- The transition-guard clearing step of `mode_select_join`
(lines 399-409): an Owner reconnect whose name matches the pending
record removes it (and cancels the timer). -/
def msjClearTransition (roomId playerName role : String) (st : ServerState) : ServerState :=
  if role = "owner" then
    match alookup roomId st.transitioningOwners with
    | some ti =>
      if ti.ownerName = some playerName then
        { st with transitioningOwners := aerase roomId st.transitioningOwners }
      else st
    | none => st
  else st

def modeSelectJoinCore (sock : Socket) (roomId playerName role : String) (recovery : Bool)
    (st : ServerState) : ServerState × Socket × List SAction :=
  let st1 := msjClearTransition roomId playerName role st
  match alookup roomId st1.rooms with
  | none => (st1, sock, [])  -- unreachable: callers ensure the room exists
  | some room =>
    let samePred : Player → Bool := fun p => p.name == playerName && p.role == role
    let room1 : Room :=
      match room.players.find? samePred with
      | some ep =>
        -- existing participant: update the connection id in place and
        -- migrate the score entry (set new key, delete old key)
        let players1 := updateFirst samePred (fun p => { p with id := sock.id }) room.players
        let scores1 :=
          match alookup ep.id room.quizState.scores with
          | some v => aerase ep.id (aset sock.id v room.quizState.scores)
          | none => room.quizState.scores
        let qs1 := { room.quizState with scores := scores1 }
        { room with players := players1, quizState := qs1 }
      | none =>
        let freshPlayer : Player :=
          { id := sock.id, name := playerName, role := role, ready := false }
        if recovery then
          { room with players := room.players ++ [freshPlayer] }
        else
          let sameRole := room.players.filter (fun p => p.role == role)
          if sameRole.length = 0 ∧ room.players.length < 2 then
            { room with players := room.players ++ [freshPlayer] }
          else room
    let st2 := { st1 with rooms := aset roomId room1 st1.rooms }
    (st2, sock,
      [SAction.emitSelf "mode_select_connected",
        SAction.emitRoomOther roomId "player_reconnected"])

/-- The `mode_select_join` handler. -/
def modeSelectJoin (sock : Socket) (roomId playerName role : String) (recovery : Bool)
    (st : ServerState) : ServerState × Socket × List SAction :=
  if roomId = "" ∨ playerName = "" ∨ role = "" then
    (st, sock, [SAction.emitSelf "room_not_found"])
  else
    let sock1 : Socket :=
      { sock with roomId := some roomId, playerName := some playerName, role := some role }
    match alookup roomId st.rooms with
    | some _ => modeSelectJoinCore sock1 roomId playerName role recovery st
    | none =>
      if recovery then
        modeSelectJoinCore sock1 roomId playerName role recovery
          { st with rooms := aset roomId initialRoom st.rooms }
      else (st, sock1, [SAction.emitSelf "room_not_found"])

/-- The `leave_room` handler. -/
def leaveRoom (sock : Socket) (roomId : String) (st : ServerState) :
    ServerState × Socket × List SAction :=
  if strTruthy sock.roomId ∧ sock.roomId = some roomId then
    let step : ServerState × List SAction :=
      match alookup roomId st.rooms with
      | some room =>
        let room1 := { room with players := room.players.filter (fun p => !(p.id == sock.id)) }
        if room1.players.length = 0 then
          ({ st with rooms := aerase roomId st.rooms },
            [SAction.emitRoomOther roomId "player_left", SAction.deleteRoom roomId])
        else
          ({ st with rooms := aset roomId room1 st.rooms },
            [SAction.emitRoomOther roomId "player_left"])
      | none => (st, [])
    (step.1, { sock with roomId := none, playerName := none, role := none }, step.2)
  else (st, sock, [])

/-- The owner-session cleanup step of the `disconnect` handler
(lines 598-605): drop the identity record if it still points at the
room the Owner is disconnecting from. -/
def disconnectOwnerSessionCleanup (sock : Socket) (rid : String) (st : ServerState) :
    ServerState :=
  if sock.role = some "owner" ∧ strTruthy sock.playerName then
    match sock.playerName with
    | some pn =>
      match alookup pn st.ownerSessions with
      | some s =>
        if s.currentRoomId = rid then
          { st with ownerSessions := aerase pn st.ownerSessions }
        else st
      | none => st
    | none => st
  else st

/-- The eviction tail of the `disconnect` handler (lines 595-639):
session cleanup, participant and score removal, room deletion or
notification of the remainder. -/
def disconnectEvict (sock : Socket) (rid : String) (room : Room) (st : ServerState) :
    ServerState × Socket × List SAction :=
  let disconnectedPlayer := room.players.find? (fun p => p.id == sock.id)
  let st1 := disconnectOwnerSessionCleanup sock rid st
  let qs1 := { room.quizState with scores := aerase sock.id room.quizState.scores }
  let players1 := room.players.filter (fun p => !(p.id == sock.id))
  let room1 : Room := { room with players := players1, quizState := qs1 }
  if room1.players.length = 0 then
    -- the second owner-session cleanup in the source (lines 618-625)
    -- repeats the identical check and is therefore a no-op here
    ({ st1 with rooms := aerase rid st1.rooms }, sock, [SAction.deleteRoom rid])
  else
    let notif : List SAction :=
      match disconnectedPlayer with
      | some _ => [SAction.emitRoomAll rid "player_disconnected"]
      | none => []
    ({ st1 with rooms := aset rid room1 st1.rooms }, sock,
      notif ++ [SAction.emitRoomAll rid "room_status"])

/-- The `disconnect` handler. -/
def disconnectHandler (sock : Socket) (st : ServerState) :
    ServerState × Socket × List SAction :=
  if !strTruthy sock.roomId then (st, sock, [])
  else
    match sock.roomId with
    | none => (st, sock, [])
    | some rid =>
      match alookup rid st.rooms with
      | none => (st, sock, [])
      | some room =>
        let suppressed : Bool :=
          match alookup rid st.transitioningOwners with
          | some ti => sock.role == some "owner" && ti.ownerName == sock.playerName
          | none => false
        if suppressed then (st, sock, [])
        else disconnectEvict sock rid room st

/-- The `proceed_to_mode_select` handler: install (or replace) the
grace-window record for the room.  Replacing the record models the
`clearTimeout` of a previous pending timer. -/
def proceedToModeSelect (sock : Socket) (roomId : String) (st : ServerState) :
    ServerState × Socket × List SAction :=
  if !strTruthy sock.roomId ∨ sock.roomId ≠ some roomId then (st, sock, [])
  else if sock.role ≠ some "owner" then (st, sock, [])
  else
    match alookup roomId st.rooms with
    | none => (st, sock, [])
    | some _ =>
      let info : TransitionInfo := { ownerName := sock.playerName }
      ({ st with transitioningOwners := aset roomId info st.transitioningOwners }, sock,
        [SAction.emitRoomOther roomId "owner_proceeded_to_mode_select"])

/-- The grace-window timer callback installed by `proceed_to_mode_select`
(lines 288-319 of the source), as an explicit event.  The guard on the
`transitioningOwners` record models the `clearTimeout` performed by a
successful reconnect. -/
def graceFire (roomId : String) (st : ServerState) : ServerState × List SAction :=
  match alookup roomId st.transitioningOwners with
  | none => (st, [])
  | some info =>
    match alookup roomId st.rooms with
    | none => ({ st with transitioningOwners := aerase roomId st.transitioningOwners }, [])
    | some r =>
      match extractFirst (fun p => p.role == "owner" && some p.name == info.ownerName) r.players with
      | none => ({ st with transitioningOwners := aerase roomId st.transitioningOwners }, [])
      | some (ownerPlayer, rest) =>
        let qs1 := { r.quizState with scores := aerase ownerPlayer.id r.quizState.scores }
        let r1 : Room := { r with players := rest, quizState := qs1 }
        let acts : List SAction :=
          [SAction.emitRoomAll roomId "player_disconnected",
            SAction.emitRoomAll roomId "room_status"]
        let cleared := aerase roomId st.transitioningOwners
        if rest.length = 0 then
          ({ st with rooms := aerase roomId st.rooms, transitioningOwners := cleared },
            acts ++ [SAction.deleteRoom roomId])
        else
          ({ st with rooms := aset roomId r1 st.rooms, transitioningOwners := cleared },
            acts)

/-- The `learning_category_change` handler (Owner-only). -/
def learningCategoryChange (sock : Socket) (roomId category : String) (st : ServerState) :
    ServerState × Socket × List SAction :=
  if !strTruthy sock.roomId ∨ sock.roomId ≠ some roomId then (st, sock, [])
  else if sock.role ≠ some "owner" then (st, sock, [])
  else
    match alookup roomId st.rooms with
    | none => (st, sock, [])
    | some room =>
      let ls1 := { room.learningState with currentCategory := category, isActive := true }
      let room1 : Room := { room with learningState := ls1 }
      ({ st with rooms := aset roomId room1 st.rooms }, sock,
        [SAction.emitRoomOther roomId "learning_category_changed"])

/-- The `learning_scroll_change` handler (Owner-only). -/
def learningScrollChange (sock : Socket) (roomId category : String) (scrollTop : Int)
    (st : ServerState) : ServerState × Socket × List SAction :=
  if !strTruthy sock.roomId ∨ sock.roomId ≠ some roomId then (st, sock, [])
  else if sock.role ≠ some "owner" then (st, sock, [])
  else
    match alookup roomId st.rooms with
    | none => (st, sock, [])
    | some room =>
      let ls1 :=
        { room.learningState with
          scrollPosition := aset category scrollTop room.learningState.scrollPosition }
      let room1 : Room := { room with learningState := ls1 }
      ({ st with rooms := aset roomId room1 st.rooms }, sock,
        [SAction.emitRoomOther roomId "learning_scroll_sync"])

/-- The `learning_story_change` handler (Owner-only).  `chapterId` is
nullable (`chapterId != null` in the source). -/
def learningStoryChange (sock : Socket) (roomId category : String) (chapterId : Option Int)
    (st : ServerState) : ServerState × Socket × List SAction :=
  if !strTruthy sock.roomId ∨ sock.roomId ≠ some roomId then (st, sock, [])
  else if sock.role ≠ some "owner" then (st, sock, [])
  else
    match alookup roomId st.rooms with
    | none => (st, sock, [])
    | some room =>
      let ls := room.learningState
      let newCat :=
        if category ≠ "" then category
        else if ls.currentCategory ≠ "" then ls.currentCategory else "menu"
      let selected1 :=
        match chapterId with
        | some c => if category ≠ "" then aset category c ls.selectedStory else ls.selectedStory
        | none => ls.selectedStory
      let ls1 := { ls with currentCategory := newCat, selectedStory := selected1 }
      let room1 : Room := { room with learningState := ls1 }
      ({ st with rooms := aset roomId room1 st.rooms }, sock,
        [SAction.emitRoomOther roomId "learning_story_changed"])

/-- The `select_learning_mode` handler (Owner-only). -/
def selectLearningMode (sock : Socket) (roomId : String) (st : ServerState) :
    ServerState × Socket × List SAction :=
  if !strTruthy sock.roomId ∨ sock.roomId ≠ some roomId then (st, sock, [])
  else if sock.role ≠ some "owner" then (st, sock, [])
  else
    match alookup roomId st.rooms with
    | none => (st, sock, [])
    | some room =>
      let ls1 := { room.learningState with isActive := true, currentCategory := "menu" }
      let room1 : Room := { room with learningState := ls1 }
      ({ st with rooms := aset roomId room1 st.rooms }, sock,
        [SAction.emitRoomAll roomId "redirect_to_learning"])

/-- The `select_quiz_mode` handler (Owner-only). -/
def selectQuizMode (sock : Socket) (roomId : String) (st : ServerState) :
    ServerState × Socket × List SAction :=
  if !strTruthy sock.roomId ∨ sock.roomId ≠ some roomId then (st, sock, [])
  else if sock.role ≠ some "owner" then (st, sock, [])
  else
    match alookup roomId st.rooms with
    | none => (st, sock, [])
    | some room =>
      let qs1 := { room.quizState with isActive := true }
      let room1 : Room := { room with quizState := qs1 }
      ({ st with rooms := aset roomId room1 st.rooms }, sock,
        [SAction.emitRoomAll roomId "redirect_to_matching"])

/-- One iteration of the `revealAnswers` scoring loop
(`room.players.forEach(...)`): if this participant's recorded answer
matches the correct index, add `100 + max(0, timeLeft)` to its score
entry (`+=` on a missing or `NaN` entry yields `NaN`, i.e. `none`). -/
def scoreOne (q : Question) (answers : List (String × Answer))
    (scores : List (String × Option Int)) (p : Player) : List (String × Option Int) :=
  match alookup p.id answers with
  | none => scores
  | some a =>
    if a.option = q.correctAnswer then
      -- `Math.max(0, timeLeft)`; spelled as a comparison so that the
      -- definition evaluates by kernel reduction
      let sc : Int := 100 + (if 0 ≤ a.timeLeft then a.timeLeft else 0)
      let newVal : Option Int :=
        match alookup p.id scores with
        | some (some v) => some (v + sc)
        | _ => none
      aset p.id newVal scores
    else scores

/-- The `revealAnswers` round-scoring function (lines 713-759).  If the
room has no current question the source would throw a `TypeError` while
reading `question.correctAnswer`, leaving the state unchanged and
emitting nothing; the deferred round-advance `setTimeout` is a separate
timer event outside this function. -/
def revealAnswers (roomId : String) (st : ServerState) : ServerState × List SAction :=
  match alookup roomId st.rooms with
  | none => (st, [])
  | some room =>
    match room.quizState.currentQuestion with
    | none => (st, [])
    | some q =>
      let scores1 :=
        room.players.foldl (fun sc p => scoreOne q room.quizState.answers sc p)
          room.quizState.scores
      let qs1 := { room.quizState with scores := scores1 }
      let room1 : Room := { room with quizState := qs1 }
      ({ st with rooms := aset roomId room1 st.rooms },
        [SAction.emitRoomAll roomId "question_result"])

/-- The `submit_answer` handler.  The returned `Bool` records whether
`revealAnswers` was invoked (i.e. the per-round answer map reached two
keys after recording). -/
def submitAnswer (sock : Socket) (selectedOption timeLeft : Int) (st : ServerState) :
    ServerState × List SAction × Bool :=
  if !strTruthy sock.roomId then (st, [], false)
  else
    match sock.roomId with
    | none => (st, [], false)
    | some rid =>
      match alookup rid st.rooms with
      | none => (st, [], false)
      | some room =>
        if !room.quizState.isActive then (st, [], false)
        else
          let ans : Answer := { option := selectedOption, timeLeft := timeLeft }
          let answers1 := aset sock.id ans room.quizState.answers
          let qs1 := { room.quizState with answers := answers1 }
          let room1 : Room := { room with quizState := qs1 }
          let st1 := { st with rooms := aset rid room1 st.rooms }
          if answers1.length = 2 then
            let rev := revealAnswers rid st1
            (rev.1, rev.2, true)
          else (st1, [], false)

/-! ### Association-list lemmas -/

theorem alookup_aset_self {α : Type} (k : String) (v : α) (l : List (String × α)) :
    alookup k (aset k v l) = some v := by
  induction l with
  | nil => simp [aset, alookup]
  | cons e rest ih =>
    by_cases h : e.1 = k
    · simp [aset, h, alookup]
    · simp [aset, h, alookup, ih]

theorem alookup_aset_ne {α : Type} {k k' : String} (v : α) (l : List (String × α))
    (h : k' ≠ k) : alookup k' (aset k v l) = alookup k' l := by
  induction l with
  | nil => simp [aset, alookup, Ne.symm h]
  | cons e rest ih =>
    by_cases he : e.1 = k
    · have h1 : ¬e.1 = k' := by rw [he]; exact Ne.symm h
      simp [aset, he, alookup, Ne.symm h, h1]
    · simp only [aset, he, if_false, alookup]
      by_cases he' : e.1 = k'
      · simp [he']
      · simp [he', ih]

theorem alookup_aerase_self {α : Type} (k : String) (l : List (String × α)) :
    alookup k (aerase k l) = none := by
  induction l with
  | nil => simp [aerase, alookup]
  | cons e rest ih =>
    by_cases h : e.1 = k
    · simpa [aerase, h] using ih
    · simpa [aerase, alookup, h] using ih

theorem alookup_aerase_ne {α : Type} {k k' : String} (l : List (String × α))
    (h : k' ≠ k) : alookup k' (aerase k l) = alookup k' l := by
  induction l with
  | nil => simp [aerase]
  | cons e rest ih =>
    by_cases he : e.1 = k
    · have h1 : ¬e.1 = k' := by rw [he]; exact Ne.symm h
      simp [aerase, he, alookup, h1, ih, Ne.symm h]
    · by_cases he' : e.1 = k'
      · simp [aerase, alookup, he, he', h]
      · simp [aerase, alookup, he, he', ih]

theorem alookup_aset_cases {α : Type} {k k' : String} {v w : α} {l : List (String × α)}
    (h : alookup k' (aset k v l) = some w) :
    (k' = k ∧ w = v) ∨ alookup k' l = some w := by
  by_cases hk : k' = k
  · subst hk
    rw [alookup_aset_self] at h
    exact Or.inl ⟨rfl, (Option.some.injEq _ _ ▸ h).symm⟩
  · rw [alookup_aset_ne v l hk] at h
    exact Or.inr h

theorem alookup_aerase_cases {α : Type} {k k' : String} {w : α} {l : List (String × α)}
    (h : alookup k' (aerase k l) = some w) :
    k' ≠ k ∧ alookup k' l = some w := by
  by_cases hk : k' = k
  · subst hk
    rw [alookup_aerase_self] at h
    exact absurd h (by simp)
  · exact ⟨hk, by rwa [alookup_aerase_ne l hk] at h⟩

/-! ### C8: Owner-only events from unauthorized senders are silent no-ops -/

theorem learningCategoryChange_noop (sock : Socket) (roomId category : String)
    (st : ServerState) (h : sock.role ≠ some "owner" ∨ sock.roomId ≠ some roomId) :
    learningCategoryChange sock roomId category st = (st, sock, []) := by
  unfold learningCategoryChange
  split
  · rfl
  · rename_i hcond
    split
    · rfl
    · rename_i hrole
      exfalso
      push_neg at hcond hrole
      rcases h with h | h
      · exact h hrole
      · exact h hcond.2

theorem learningScrollChange_noop (sock : Socket) (roomId category : String) (scrollTop : Int)
    (st : ServerState) (h : sock.role ≠ some "owner" ∨ sock.roomId ≠ some roomId) :
    learningScrollChange sock roomId category scrollTop st = (st, sock, []) := by
  unfold learningScrollChange
  split
  · rfl
  · rename_i hcond
    split
    · rfl
    · rename_i hrole
      exfalso
      push_neg at hcond hrole
      rcases h with h | h
      · exact h hrole
      · exact h hcond.2

theorem learningStoryChange_noop (sock : Socket) (roomId category : String)
    (chapterId : Option Int) (st : ServerState)
    (h : sock.role ≠ some "owner" ∨ sock.roomId ≠ some roomId) :
    learningStoryChange sock roomId category chapterId st = (st, sock, []) := by
  unfold learningStoryChange
  split
  · rfl
  · rename_i hcond
    split
    · rfl
    · rename_i hrole
      exfalso
      push_neg at hcond hrole
      rcases h with h | h
      · exact h hrole
      · exact h hcond.2

theorem proceedToModeSelect_noop (sock : Socket) (roomId : String) (st : ServerState)
    (h : sock.role ≠ some "owner" ∨ sock.roomId ≠ some roomId) :
    proceedToModeSelect sock roomId st = (st, sock, []) := by
  unfold proceedToModeSelect
  split
  · rfl
  · rename_i hcond
    split
    · rfl
    · rename_i hrole
      exfalso
      push_neg at hcond hrole
      rcases h with h | h
      · exact h hrole
      · exact h hcond.2

theorem selectLearningMode_noop (sock : Socket) (roomId : String) (st : ServerState)
    (h : sock.role ≠ some "owner" ∨ sock.roomId ≠ some roomId) :
    selectLearningMode sock roomId st = (st, sock, []) := by
  unfold selectLearningMode
  split
  · rfl
  · rename_i hcond
    split
    · rfl
    · rename_i hrole
      exfalso
      push_neg at hcond hrole
      rcases h with h | h
      · exact h hrole
      · exact h hcond.2

theorem selectQuizMode_noop (sock : Socket) (roomId : String) (st : ServerState)
    (h : sock.role ≠ some "owner" ∨ sock.roomId ≠ some roomId) :
    selectQuizMode sock roomId st = (st, sock, []) := by
  unfold selectQuizMode
  split
  · rfl
  · rename_i hcond
    split
    · rfl
    · rename_i hrole
      exfalso
      push_neg at hcond hrole
      rcases h with h | h
      · exact h hrole
      · exact h hcond.2

/-- **C8.** Every Owner-only inbound event (`learning_category_change`,
`learning_scroll_change`, `learning_story_change`,
`proceed_to_mode_select`, `select_learning_mode`, `select_quiz_mode`)
whose sender is not the Owner or is not bound to the addressed room is a
silent no-op: the server state is unchanged and no outbound message is
emitted. -/
theorem c8_owner_only_events_silent_noop
    (st : ServerState) (sock : Socket) (roomId category : String) (scrollTop : Int)
    (chapterId : Option Int)
    (h : sock.role ≠ some "owner" ∨ sock.roomId ≠ some roomId) :
    learningCategoryChange sock roomId category st = (st, sock, []) ∧
    learningScrollChange sock roomId category scrollTop st = (st, sock, []) ∧
    learningStoryChange sock roomId category chapterId st = (st, sock, []) ∧
    proceedToModeSelect sock roomId st = (st, sock, []) ∧
    selectLearningMode sock roomId st = (st, sock, []) ∧
    selectQuizMode sock roomId st = (st, sock, []) :=
  ⟨learningCategoryChange_noop _ _ _ _ h, learningScrollChange_noop _ _ _ _ _ h,
    learningStoryChange_noop _ _ _ _ _ h, proceedToModeSelect_noop _ _ _ h,
    selectLearningMode_noop _ _ _ h, selectQuizMode_noop _ _ _ h⟩

/-- Concrete two-participant room used by several witnesses. -/
def wQuizState : QuizState :=
  { isActive := false, currentQuestion := none,
    scores := [("s1", some 0), ("s2", some 0)], answers := [], round := 0 }

def wRoom : Room :=
  { players := [{ id := "s1", name := "A", role := "owner", ready := false },
      { id := "s2", name := "B", role := "guest", ready := false }],
    quizState := wQuizState,
    learningState := initialLearningState }

def wState : ServerState :=
  { rooms := [("R", wRoom)], ownerSessions := [], transitioningOwners := [] }

def wGuestSock : Socket :=
  { id := "s2", roomId := some "R", playerName := some "B", role := some "guest" }

theorem c8_owner_only_events_silent_noop_witness :
    learningCategoryChange wGuestSock "R" "cat" wState = (wState, wGuestSock, []) ∧
    learningScrollChange wGuestSock "R" "cat" 3 wState = (wState, wGuestSock, []) ∧
    learningStoryChange wGuestSock "R" "cat" (some 1) wState = (wState, wGuestSock, []) ∧
    proceedToModeSelect wGuestSock "R" wState = (wState, wGuestSock, []) ∧
    selectLearningMode wGuestSock "R" wState = (wState, wGuestSock, []) ∧
    selectQuizMode wGuestSock "R" wState = (wState, wGuestSock, []) :=
  c8_owner_only_events_silent_noop wState wGuestSock "R" "cat" 3 (some 1)
    (Or.inl (by decide))

/-- **C7.** Registering a new room for an Owner display name whose
identity record points at a different, still-live current room closes
the old room: a `room_closed_by_owner` notice is broadcast to the old
room first, the old room's Guest participants are force-disconnected,
the old room is deleted from the room store, the old room id is appended
to the record's history, and the record then points at the new room id. -/
theorem c7_registration_closes_old_room
    (st : ServerState) (ownerName newRoomId : String) (s : OwnerSession) (oldRoom : Room)
    (hsess : alookup ownerName st.ownerSessions = some s)
    (hne0 : s.currentRoomId ≠ "") (hne : s.currentRoomId ≠ newRoomId)
    (hold : alookup s.currentRoomId st.rooms = some oldRoom) :
    (handleOwnerRoomCreation ownerName newRoomId st).2
      = [SAction.emitRoomOther s.currentRoomId "room_closed_by_owner"]
        ++ ((oldRoom.players.filter (fun p => p.role == "guest")).map
            (fun p => SAction.forceDisconnect p.id))
        ++ [SAction.deleteRoom s.currentRoomId] ∧
    alookup s.currentRoomId (handleOwnerRoomCreation ownerName newRoomId st).1.rooms = none ∧
    alookup ownerName (handleOwnerRoomCreation ownerName newRoomId st).1.ownerSessions
      = some { currentRoomId := newRoomId, previousRoomIds := s.previousRoomIds ++ [s.currentRoomId] } := by
  unfold handleOwnerRoomCreation
  simp only [hsess, hold, hne0, hne, ne_eq, not_false_iff, and_self, if_true, if_pos]
  refine ⟨trivial, ?_, ?_⟩
  · exact alookup_aerase_self _ _
  · exact alookup_aset_self _ _ _

def w7Session : OwnerSession := { currentRoomId := "R", previousRoomIds := ["Q"] }

def w7State : ServerState :=
  { rooms := [("R", wRoom)], ownerSessions := [("A", w7Session)], transitioningOwners := [] }

theorem c7_registration_closes_old_room_witness :
    (handleOwnerRoomCreation "A" "R2" w7State).2
      = [SAction.emitRoomOther "R" "room_closed_by_owner", SAction.forceDisconnect "s2",
          SAction.deleteRoom "R"] ∧
    alookup "R" (handleOwnerRoomCreation "A" "R2" w7State).1.rooms = none ∧
    alookup "A" (handleOwnerRoomCreation "A" "R2" w7State).1.ownerSessions
      = some { currentRoomId := "R2", previousRoomIds := ["Q", "R"] } := by
  have h := c7_registration_closes_old_room w7State "A" "R2" w7Session wRoom
    (by decide) (by decide) (by decide) (by decide)
  refine ⟨?_, h.2.1, ?_⟩
  · rw [h.1]; decide
  · rw [h.2.2]; decide

/-- `updateFirst` leaves any projection untouched by `f` unchanged. -/
theorem map_updateFirst {α β : Type} (p : α → Bool) (f : α → α) (g : α → β) (l : List α)
    (h : ∀ x, g (f x) = g x) : (updateFirst p f l).map g = l.map g := by
  induction l with
  | nil => rfl
  | cons x xs ih =>
    by_cases hp : p x
    · simp [updateFirst, hp, h]
    · simp [updateFirst, hp, ih]

/-- **C1.** For a room whose `TransitionRecord` names a disconnecting
Owner, the disconnect event performs no eviction at all (state, socket
and outbound messages unchanged); and a `mode_select_join` reconnect by
that Owner while the record is still present clears the record and
leaves the room's participant list (displayName, role, ready — identity
under a fresh connection id) and its score values unchanged. -/
theorem c1_transition_guard_protects_owner
    (st : ServerState) (sock sock2 : Socket) (rid pn : String)
    (room : Room) (ti : TransitionInfo) (ep : Player) (v : Option Int)
    (hrid : rid ≠ "") (hpn : pn ≠ "")
    (hroom : alookup rid st.rooms = some room)
    (hti : alookup rid st.transitioningOwners = some ti)
    (hname : ti.ownerName = some pn)
    (hsock : sock.roomId = some rid) (hrole : sock.role = some "owner")
    (hsockpn : sock.playerName = some pn)
    (hep : room.players.find? (fun p => p.name == pn && p.role == "owner") = some ep)
    (hscore : alookup ep.id room.quizState.scores = some v)
    (hfresh : sock2.id ≠ ep.id) :
    disconnectHandler sock st = (st, sock, []) ∧
    alookup rid (modeSelectJoin sock2 rid pn "owner" false st).1.transitioningOwners = none ∧
    (∃ room', alookup rid (modeSelectJoin sock2 rid pn "owner" false st).1.rooms = some room' ∧
      room'.players.map (fun p => (p.name, p.role, p.ready))
        = room.players.map (fun p => (p.name, p.role, p.ready)) ∧
      alookup sock2.id room'.quizState.scores = some v ∧
      (∀ k, k ≠ sock2.id → k ≠ ep.id →
        alookup k room'.quizState.scores = alookup k room.quizState.scores)) := by
  constructor
  · simp [disconnectHandler, hsock, hroom, hti, hrole, hname, hsockpn, strTruthy, hrid]
  · unfold modeSelectJoin modeSelectJoinCore msjClearTransition
    have hval : ¬(rid = "" ∨ pn = "" ∨ ("owner" : String) = "") := by
      simp [hrid, hpn]
    simp only [hval, if_false, if_true, reduceIte, hroom, hti, hname, hep, hscore]
    refine ⟨alookup_aerase_self _ _, ⟨_, alookup_aset_self _ _ _, ?_, ?_, ?_⟩⟩
    · exact map_updateFirst _ _ _ _ (fun x => rfl)
    · rw [alookup_aerase_ne _ hfresh, alookup_aset_self]
    · intro k hk1 hk2
      rw [alookup_aerase_ne _ hk2, alookup_aset_ne _ _ hk1]

def w1State : ServerState :=
  { rooms := [("R", wRoom)], ownerSessions := [],
    transitioningOwners := [("R", { ownerName := some "A" })] }

def w1OwnerSock : Socket :=
  { id := "s1", roomId := some "R", playerName := some "A", role := some "owner" }

def w1NewSock : Socket := { id := "s9", roomId := none, playerName := none, role := none }

theorem c1_transition_guard_protects_owner_witness :
    disconnectHandler w1OwnerSock w1State = (w1State, w1OwnerSock, []) ∧
    alookup "R" (modeSelectJoin w1NewSock "R" "A" "owner" false w1State).1.transitioningOwners
      = none ∧
    (∃ room', alookup "R" (modeSelectJoin w1NewSock "R" "A" "owner" false w1State).1.rooms
        = some room' ∧
      room'.players.map (fun p => (p.name, p.role, p.ready))
        = wRoom.players.map (fun p => (p.name, p.role, p.ready)) ∧
      alookup "s9" room'.quizState.scores = some (some 0) ∧
      (∀ k, k ≠ "s9" → k ≠ "s1" →
        alookup k room'.quizState.scores = alookup k wRoom.quizState.scores)) :=
  c1_transition_guard_protects_owner w1State w1OwnerSock w1NewSock "R" "A" wRoom
    ({ ownerName := some "A" }) ({ id := "s1", name := "A", role := "owner", ready := false })
    (some 0) (by decide) (by decide) (by decide) (by decide) (by decide) (by decide)
    (by decide) (by decide) (by decide) (by decide) (by decide)

/-- A grace-window fire with no pending record (cancelled timer) is a
complete no-op. -/
theorem graceFire_no_record (rid : String) (st : ServerState)
    (h : alookup rid st.transitioningOwners = none) : graceFire rid st = (st, []) := by
  unfold graceFire
  rw [h]

/-- **C2 (amended).** A grace-window timer fires effectively at most
once: on firing with the Owner (located by name) still present it
removes that participant, deletes its score entry, broadcasts a
disconnect notice plus refreshed room status, deletes the room if it
became empty, discards the record, and a second fire is a complete
no-op; a fire whose record was already cleared is a complete no-op; a
fire on an already-deleted room leaves every room unchanged and emits
nothing, discarding only its own stale record. -/
theorem c2_grace_expiry_evicts_once (st : ServerState) (rid : String) :
    (alookup rid st.transitioningOwners = none → graceFire rid st = (st, [])) ∧
    (∀ info, alookup rid st.transitioningOwners = some info →
      alookup rid st.rooms = none →
      (graceFire rid st).1.rooms = st.rooms ∧ (graceFire rid st).2 = [] ∧
      alookup rid (graceFire rid st).1.transitioningOwners = none) ∧
    (∀ info r op rest, alookup rid st.transitioningOwners = some info →
      alookup rid st.rooms = some r →
      extractFirst (fun p => p.role == "owner" && some p.name == info.ownerName) r.players
        = some (op, rest) →
      alookup rid (graceFire rid st).1.transitioningOwners = none ∧
      graceFire rid (graceFire rid st).1 = ((graceFire rid st).1, []) ∧
      (rest = [] →
        alookup rid (graceFire rid st).1.rooms = none ∧
        (graceFire rid st).2
          = [SAction.emitRoomAll rid "player_disconnected",
              SAction.emitRoomAll rid "room_status", SAction.deleteRoom rid]) ∧
      (rest ≠ [] →
        (∃ room', alookup rid (graceFire rid st).1.rooms = some room' ∧
          room'.players = rest ∧
          room'.quizState.scores = aerase op.id r.quizState.scores) ∧
        (graceFire rid st).2
          = [SAction.emitRoomAll rid "player_disconnected",
              SAction.emitRoomAll rid "room_status"])) := by
  refine ⟨graceFire_no_record rid st, ?_, ?_⟩
  · intro info hinfo hroom
    unfold graceFire
    rw [hinfo, hroom]
    exact ⟨rfl, rfl, alookup_aerase_self _ _⟩
  · intro info r op rest hinfo hroom hext
    by_cases hrest : rest = []
    · subst hrest
      simp only [graceFire, hinfo, hroom, hext, List.length_nil, if_pos rfl]
      refine ⟨alookup_aerase_self _ _, ?_, fun _ => ⟨alookup_aerase_self _ _, rfl⟩,
        fun hc => absurd rfl hc⟩
      exact graceFire_no_record _ _ (alookup_aerase_self _ _)
    · have hlen : ¬rest.length = 0 := by simpa [List.length_eq_zero] using hrest
      simp only [graceFire, hinfo, hroom, hext, hlen, if_false, reduceIte]
      refine ⟨alookup_aerase_self _ _, ?_, fun hc => absurd hc hrest, ?_⟩
      · simp only [alookup_aerase_self]
      · intro _
        exact ⟨⟨_, alookup_aset_self _ _ _, rfl, rfl⟩, trivial⟩

/-- **C2 counterexample.** The claim as stated ("a timer firing after the
room was already deleted makes no state change") is false: with a stale
`TransitionRecord` for a deleted room, the fire deletes that record. -/
def c2CexState : ServerState :=
  { rooms := [], ownerSessions := [], transitioningOwners := [("R", { ownerName := some "A" })] }

theorem c2_fire_after_room_deleted_changes_state :
    (graceFire "R" c2CexState).1 ≠ c2CexState := by decide

theorem c2_grace_expiry_evicts_once_witness :
    alookup "R" (graceFire "R" w1State).1.transitioningOwners = none ∧
    graceFire "R" (graceFire "R" w1State).1 = ((graceFire "R" w1State).1, []) ∧
    (∃ room', alookup "R" (graceFire "R" w1State).1.rooms = some room' ∧
      room'.players = [{ id := "s2", name := "B", role := "guest", ready := false }] ∧
      room'.quizState.scores = aerase "s1" wRoom.quizState.scores) ∧
    (graceFire "R" w1State).2
      = [SAction.emitRoomAll "R" "player_disconnected",
          SAction.emitRoomAll "R" "room_status"] ∧
    (graceFire "R" c2CexState).1.rooms = c2CexState.rooms ∧
    (graceFire "R" c2CexState).2 = [] := by
  have h := (c2_grace_expiry_evicts_once w1State "R").2.2
    ({ ownerName := some "A" }) wRoom
    ({ id := "s1", name := "A", role := "owner", ready := false })
    ([{ id := "s2", name := "B", role := "guest", ready := false }])
    (by decide) (by decide) (by decide)
  have h2 := (c2_grace_expiry_evicts_once c2CexState "R").2.1
    ({ ownerName := some "A" }) (by decide) (by decide)
  have h3 := h.2.2.2 (by decide)
  exact ⟨h.1, h.2.1, h3.1, h3.2, h2.1, h2.2.1⟩

/-- **C10.** An authorized `leave_room` removes the leaving participant
from the participant list and notifies the room, but leaves the quiz
score map untouched (the leaver's score entry is not deleted) — unlike
the `disconnect` path, which deletes the disconnecting connection's
score entry. -/
theorem c10_leave_room_does_not_delete_scores
    (st : ServerState) (sock : Socket) (rid : String) (room : Room)
    (hrid : rid ≠ "") (hsock : sock.roomId = some rid)
    (hroom : alookup rid st.rooms = some room)
    (hne : room.players.filter (fun p => !(p.id == sock.id)) ≠ []) :
    (∃ room', alookup rid (leaveRoom sock rid st).1.rooms = some room' ∧
      room'.players = room.players.filter (fun p => !(p.id == sock.id)) ∧
      room'.quizState.scores = room.quizState.scores ∧
      (leaveRoom sock rid st).2.2 = [SAction.emitRoomOther rid "player_left"]) ∧
    (alookup rid st.transitioningOwners = none →
      ∃ room', alookup rid (disconnectHandler sock st).1.rooms = some room' ∧
        room'.quizState.scores = aerase sock.id room.quizState.scores ∧
        alookup sock.id room'.quizState.scores = none) := by
  have hlen : ¬(room.players.filter (fun p => !(p.id == sock.id))).length = 0 := by
    simpa [List.length_eq_zero] using hne
  constructor
  · simp only [leaveRoom, hsock, strTruthy, hrid, hroom, hlen, if_false, reduceIte,
      Bool.not_eq_true', decide_eq_false, and_true, and_self, if_true]
    exact ⟨_, alookup_aset_self _ _ _, rfl, rfl, rfl⟩
  · intro htrans
    simp only [disconnectHandler, disconnectEvict, hsock, strTruthy, hrid, hroom, htrans, hlen,
      Bool.not_true, if_false, reduceIte, Bool.not_eq_true']
    exact ⟨_, alookup_aset_self _ _ _, rfl, alookup_aerase_self _ _⟩

theorem c10_leave_room_does_not_delete_scores_witness :
    (∃ room', alookup "R" (leaveRoom wGuestSock "R" wState).1.rooms = some room' ∧
      room'.players = wRoom.players.filter (fun p => !(p.id == "s2")) ∧
      room'.quizState.scores = wRoom.quizState.scores ∧
      (leaveRoom wGuestSock "R" wState).2.2 = [SAction.emitRoomOther "R" "player_left"]) ∧
    (∃ room', alookup "R" (disconnectHandler wGuestSock wState).1.rooms = some room' ∧
      room'.quizState.scores = aerase "s2" wRoom.quizState.scores ∧
      alookup "s2" room'.quizState.scores = none) := by
  have h := c10_leave_room_does_not_delete_scores wState wGuestSock "R" wRoom
    (by decide) (by decide) (by decide) (by decide)
  exact ⟨h.1, h.2 (by decide)⟩

/-- **C9.** `submit_answer` from a connection bound to an existing room
with an active quiz records the answer under the sender's connection id
with no check that the sender is a current participant, and invokes the
reveal exactly when the per-round answer map holds two keys after the
write; with an inactive quiz or a missing room the event changes
nothing. -/
theorem c9_submit_answer_records_without_membership_check
    (st : ServerState) (sock : Socket) (rid : String) (room : Room)
    (selectedOption timeLeft : Int)
    (hrid : rid ≠ "") (hsock : sock.roomId = some rid) :
    (alookup rid st.rooms = some room → room.quizState.isActive = true →
      ∃ room', alookup rid (submitAnswer sock selectedOption timeLeft st).1.rooms = some room' ∧
        room'.quizState.answers
          = aset sock.id ({ option := selectedOption, timeLeft := timeLeft }) room.quizState.answers ∧
        ((submitAnswer sock selectedOption timeLeft st).2.2 = true ↔
          (akeys (aset sock.id ({ option := selectedOption, timeLeft := timeLeft })
            room.quizState.answers)).length = 2)) ∧
    (alookup rid st.rooms = some room → room.quizState.isActive = false →
      submitAnswer sock selectedOption timeLeft st = (st, [], false)) ∧
    (alookup rid st.rooms = none →
      submitAnswer sock selectedOption timeLeft st = (st, [], false)) := by
  have hak : ∀ (l : List (String × Answer)), (akeys l).length = l.length := by
    intro l; simp [akeys]
  refine ⟨?_, ?_, ?_⟩
  · intro hroom hact
    simp only [submitAnswer, hsock, strTruthy, hrid, hroom, hact, Bool.not_true, if_false,
      reduceIte, Bool.not_eq_true', decide_eq_false]
    by_cases hlen :
        (aset sock.id ({ option := selectedOption, timeLeft := timeLeft } : Answer)
          room.quizState.answers).length = 2
    · simp only [hlen, if_pos rfl, if_true, reduceIte, revealAnswers, alookup_aset_self, hak]
      cases hq : room.quizState.currentQuestion with
      | none =>
        simp only [hq]
        exact ⟨_, alookup_aset_self _ _ _, rfl, by simp [hlen]⟩
      | some q =>
        simp only [hq]
        exact ⟨_, alookup_aset_self _ _ _, rfl, by simp [hlen]⟩
    · simp only [hlen, if_false, reduceIte, hak]
      exact ⟨_, alookup_aset_self _ _ _, rfl, by simp [hlen]⟩
  · intro hroom hact
    simp [submitAnswer, hsock, strTruthy, hrid, hroom, hact]
  · intro hroom
    simp [submitAnswer, hsock, strTruthy, hrid, hroom]

def w9QuizState : QuizState :=
  { isActive := true, currentQuestion := some { correctAnswer := 1, explanation := "e" },
    scores := [("s1", some 0), ("s2", some 0)],
    answers := [("zz", { option := 0, timeLeft := 0 })], round := 1 }

def w9Room : Room :=
  { players := wRoom.players, quizState := w9QuizState, learningState := initialLearningState }

def w9State : ServerState :=
  { rooms := [("R", w9Room)], ownerSessions := [], transitioningOwners := [] }

/-- A sender that is not a participant of the room (`"yy"` is no
player's connection id). -/
def w9Sock : Socket :=
  { id := "yy", roomId := some "R", playerName := some "Z", role := some "guest" }

theorem c9_submit_answer_records_without_membership_check_witness :
    ∃ room', alookup "R" (submitAnswer w9Sock 1 3 w9State).1.rooms = some room' ∧
      room'.quizState.answers
        = aset "yy" ({ option := 1, timeLeft := 3 }) w9Room.quizState.answers ∧
      (submitAnswer w9Sock 1 3 w9State).2.2 = true := by
  have h := (c9_submit_answer_records_without_membership_check w9State w9Sock "R" w9Room 1 3
    (by decide) (by decide)).1 (by decide) (by decide)
  obtain ⟨room', h1, h2, h3⟩ := h
  exact ⟨room', h1, h2, h3.mpr (by decide)⟩

/-- Closing an Owner's previous room never touches the (different) room
being registered. -/
theorem hoc_rooms_other (ownerName newRoomId : String) (st : ServerState) :
    alookup newRoomId (handleOwnerRoomCreation ownerName newRoomId st).1.rooms
      = alookup newRoomId st.rooms := by
  unfold handleOwnerRoomCreation
  cases hs : alookup ownerName st.ownerSessions with
  | none => simp
  | some s =>
    by_cases hc : s.currentRoomId ≠ "" ∧ s.currentRoomId ≠ newRoomId
    · cases hr : alookup s.currentRoomId st.rooms with
      | none => simp [hc.1, hc.2, hr]
      | some oldRoom =>
        simp [hc.1, hc.2, hr, alookup_aerase_ne _ (Ne.symm hc.2)]
    · simp [hc]

theorem joinOwnerStep_rooms (playerName roomId role : String) (st : ServerState) :
    alookup roomId (joinOwnerStep playerName roomId role st).1.rooms
      = alookup roomId st.rooms := by
  unfold joinOwnerStep
  by_cases h : role = "owner"
  · simp only [h, if_pos rfl]
    exact hoc_rooms_other playerName roomId st
  · simp [h]

theorem msjClearTransition_rooms (roomId playerName role : String) (st : ServerState) :
    (msjClearTransition roomId playerName role st).rooms = st.rooms := by
  unfold msjClearTransition
  by_cases h : role = "owner"
  · cases ht : alookup roomId st.transitioningOwners with
    | none => simp [h, ht]
    | some ti =>
      by_cases hn : ti.ownerName = some playerName
      · simp [h, ht, hn]
      · simp [h, ht, hn]
  · simp [h]

/-- **C3.** For a (displayName, role) pair already occupying a slot of a
room (of at most two participants, per the data model), a `join_room`
removes the old participant entry and its score entry and appends a
fresh participant with `ready = false` and score `0`, while a
`mode_select_join` reconnect keeps the entry, updating only its
connection id in place, and migrates the existing score value from the
old connection-id key to the new one. -/
theorem c3_fresh_join_resets_reconnect_preserves
    (st : ServerState) (sock sock2 : Socket) (rid pn role : String)
    (room : Room) (ep : Player) (v : Option Int)
    (hrid : rid ≠ "") (hpn : pn ≠ "") (hrolene : role ≠ "")
    (hroom : alookup rid st.rooms = some room)
    (hep : room.players.find? (fun p => p.name == pn && p.role == role) = some ep)
    (hcap : (room.players.filter (fun p => !(p.name == pn && p.role == role))).length < 2)
    (hfresh : sock.id ≠ ep.id) (hfresh2 : sock2.id ≠ ep.id)
    (hscore : alookup ep.id room.quizState.scores = some v) :
    (∃ room', alookup rid (joinRoom sock rid pn role st).1.rooms = some room' ∧
      room'.players
        = room.players.filter (fun p => !(p.name == pn && p.role == role))
          ++ [{ id := sock.id, name := pn, role := role, ready := false }] ∧
      alookup ep.id room'.quizState.scores = none ∧
      alookup sock.id room'.quizState.scores = some (some 0) ∧
      (∀ k, k ≠ sock.id → k ≠ ep.id →
        alookup k room'.quizState.scores = alookup k room.quizState.scores)) ∧
    (∃ room', alookup rid (modeSelectJoin sock2 rid pn role false st).1.rooms = some room' ∧
      room'.players
        = updateFirst (fun p => p.name == pn && p.role == role)
            (fun p => { p with id := sock2.id }) room.players ∧
      room'.players.map (fun p => (p.name, p.role, p.ready))
        = room.players.map (fun p => (p.name, p.role, p.ready)) ∧
      alookup sock2.id room'.quizState.scores = some v ∧
      alookup ep.id room'.quizState.scores = none ∧
      (∀ k, k ≠ sock2.id → k ≠ ep.id →
        alookup k room'.quizState.scores = alookup k room.quizState.scores)) := by
  constructor
  · have hlen : ¬(room.players.filter (fun p => !(p.name == pn && p.role == role))).length ≥ 2 := by
      omega
    unfold joinRoom
    simp only [joinOwnerStep_rooms, hroom, hep, hlen, hrolene, if_false, reduceIte]
    refine ⟨_, alookup_aset_self _ _ _, rfl, ?_, alookup_aset_self _ _ _, ?_⟩
    · rw [alookup_aset_ne _ _ (Ne.symm hfresh), alookup_aerase_self]
    · intro k hk1 hk2
      rw [alookup_aset_ne _ _ hk1, alookup_aerase_ne _ hk2]
  · have hval : ¬(rid = "" ∨ pn = "" ∨ role = "") := by
      simp [hrid, hpn, hrolene]
    unfold modeSelectJoin modeSelectJoinCore
    simp only [hval, hroom, msjClearTransition_rooms, hep, hscore, if_false, reduceIte]
    refine ⟨_, alookup_aset_self _ _ _, rfl, ?_, ?_, ?_, ?_⟩
    · exact map_updateFirst _ _ _ _ (fun x => rfl)
    · rw [alookup_aerase_ne _ hfresh2, alookup_aset_self]
    · rw [alookup_aerase_self]
    · intro k hk1 hk2
      rw [alookup_aerase_ne _ hk2, alookup_aset_ne _ _ hk1]

def w3JoinSock : Socket := { id := "s9", roomId := none, playerName := none, role := none }

def w3MsjSock : Socket := { id := "s8", roomId := none, playerName := none, role := none }

theorem c3_fresh_join_resets_reconnect_preserves_witness :
    (∃ room', alookup "R" (joinRoom w3JoinSock "R" "B" "guest" wState).1.rooms = some room' ∧
      room'.players
        = wRoom.players.filter (fun p => !(p.name == "B" && p.role == "guest"))
          ++ [{ id := "s9", name := "B", role := "guest", ready := false }] ∧
      alookup "s2" room'.quizState.scores = none ∧
      alookup "s9" room'.quizState.scores = some (some 0) ∧
      (∀ k, k ≠ "s9" → k ≠ "s2" →
        alookup k room'.quizState.scores = alookup k wRoom.quizState.scores)) ∧
    (∃ room', alookup "R" (modeSelectJoin w3MsjSock "R" "B" "guest" false wState).1.rooms
        = some room' ∧
      room'.players
        = updateFirst (fun p => p.name == "B" && p.role == "guest")
            (fun p => { p with id := "s8" }) wRoom.players ∧
      room'.players.map (fun p => (p.name, p.role, p.ready))
        = wRoom.players.map (fun p => (p.name, p.role, p.ready)) ∧
      alookup "s8" room'.quizState.scores = some (some 0) ∧
      alookup "s2" room'.quizState.scores = none ∧
      (∀ k, k ≠ "s8" → k ≠ "s2" →
        alookup k room'.quizState.scores = alookup k wRoom.quizState.scores)) :=
  c3_fresh_join_resets_reconnect_preserves wState w3JoinSock w3MsjSock "R" "B" "guest" wRoom
    ({ id := "s2", name := "B", role := "guest", ready := false }) (some 0)
    (by decide) (by decide) (by decide) (by decide) (by decide) (by decide)
    (by decide) (by decide) (by decide)

/-- Scoring one participant never touches another connection id's entry. -/
theorem scoreOne_lookup_ne (q : Question) (ans : List (String × Answer))
    (scores : List (String × Option Int)) (r : Player) (k : String) (h : r.id ≠ k) :
    alookup k (scoreOne q ans scores r) = alookup k scores := by
  unfold scoreOne
  cases ha : alookup r.id ans with
  | none => rfl
  | some a =>
    by_cases hc : a.option = q.correctAnswer
    · simp only [hc, if_pos rfl, reduceIte]
      exact alookup_aset_ne _ _ (Ne.symm h)
    · simp [hc]

theorem foldl_scoreOne_lookup_ne (q : Question) (ans : List (String × Answer))
    (ps : List Player) (scores : List (String × Option Int)) (k : String)
    (h : ∀ r ∈ ps, r.id ≠ k) :
    alookup k (ps.foldl (fun sc p => scoreOne q ans sc p) scores) = alookup k scores := by
  induction ps generalizing scores with
  | nil => rfl
  | cons r rest ih =>
    rw [List.foldl_cons, ih _ (fun x hx => h x (List.mem_cons_of_mem _ hx))]
    exact scoreOne_lookup_ne _ _ _ _ _ (h r (List.mem_cons_self _ _))

/-- The effect of `scoreOne` at its own key only depends on the current
value at that key. -/
theorem scoreOne_lookup_self_congr (q : Question) (ans : List (String × Answer))
    (s1 s2 : List (String × Option Int)) (p : Player)
    (h : alookup p.id s1 = alookup p.id s2) :
    alookup p.id (scoreOne q ans s1 p) = alookup p.id (scoreOne q ans s2 p) := by
  unfold scoreOne
  cases ha : alookup p.id ans with
  | none => exact h
  | some a =>
    by_cases hc : a.option = q.correctAnswer
    · simp only [hc, reduceIte, h]
      rw [alookup_aset_self, alookup_aset_self]
    · simp [hc, h]

/-- With pairwise-distinct connection ids, the scoring fold acts on each
participant's entry exactly as that participant's own `scoreOne` step on
the initial score map. -/
theorem foldl_scoreOne_lookup (q : Question) (ans : List (String × Answer))
    (ps : List Player) (scores : List (String × Option Int)) (p : Player)
    (hnd : (ps.map (fun r => r.id)).Nodup) (hp : p ∈ ps) :
    alookup p.id (ps.foldl (fun sc r => scoreOne q ans sc r) scores)
      = alookup p.id (scoreOne q ans scores p) := by
  induction ps generalizing scores with
  | nil => cases hp
  | cons r rest ih =>
    rw [List.foldl_cons]
    rcases List.mem_cons.mp hp with he | hm
    · subst he
      have hne : ∀ x ∈ rest, x.id ≠ p.id := by
        intro x hx hxe
        exact (List.nodup_cons.mp hnd).1 (List.mem_map.mpr ⟨x, hx, hxe⟩)
      exact foldl_scoreOne_lookup_ne q ans rest _ p.id hne
    · have hne : r.id ≠ p.id := by
        intro he
        exact (List.nodup_cons.mp hnd).1 (List.mem_map.mpr ⟨p, hm, he.symm⟩)
      rw [ih (scoreOne q ans scores r) (List.nodup_cons.mp hnd).2 hm]
      exact scoreOne_lookup_self_congr _ _ _ _ _ (scoreOne_lookup_ne _ _ _ _ _ hne)

/-- **C6.** In reveal, a participant whose recorded answer equals the
question's correct index has exactly `100 + max 0 remainingTime` added
to its running score (so `remainingTime = 10` adds `110` and a negative
`remainingTime` still adds the flat `100`), while a participant with a
missing or incorrect answer keeps its score unchanged for the round. -/
theorem c6_reveal_awards_time_bonus
    (st : ServerState) (rid : String) (room : Room) (q : Question) (p : Player)
    (hroom : alookup rid st.rooms = some room)
    (hq : room.quizState.currentQuestion = some q)
    (hnd : (room.players.map (fun r => r.id)).Nodup)
    (hp : p ∈ room.players) :
    ∃ room', alookup rid (revealAnswers rid st).1.rooms = some room' ∧
      (∀ a v, alookup p.id room.quizState.answers = some a →
        a.option = q.correctAnswer →
        alookup p.id room.quizState.scores = some (some v) →
        alookup p.id room'.quizState.scores = some (some (v + (100 + max 0 a.timeLeft)))) ∧
      ((alookup p.id room.quizState.answers = none ∨
        (∃ a, alookup p.id room.quizState.answers = some a ∧ a.option ≠ q.correctAnswer)) →
        alookup p.id room'.quizState.scores = alookup p.id room.quizState.scores) := by
  unfold revealAnswers
  simp only [hroom, hq]
  refine ⟨_, alookup_aset_self _ _ _, ?_, ?_⟩
  · intro a v ha hc hs
    rw [foldl_scoreOne_lookup q room.quizState.answers room.players _ p hnd hp]
    unfold scoreOne
    simp only [ha, hc, if_pos rfl, reduceIte, hs, alookup_aset_self]
    rw [max_def]
  · intro hmiss
    rw [foldl_scoreOne_lookup q room.quizState.answers room.players _ p hnd hp]
    unfold scoreOne
    rcases hmiss with ha | ⟨a, ha, hc⟩
    · simp [ha]
    · simp [ha, hc]

def w6Q : Question := { correctAnswer := 1, explanation := "1 byte = 8 bits" }

def w6QuizState : QuizState :=
  { isActive := true, currentQuestion := some w6Q,
    scores := [("s1", some 0), ("s2", some 7)],
    answers := [("s1", { option := 1, timeLeft := 10 }), ("s2", { option := 0, timeLeft := 5 })],
    round := 1 }

def w6Room : Room :=
  { players := wRoom.players, quizState := w6QuizState, learningState := initialLearningState }

def w6State : ServerState :=
  { rooms := [("R", w6Room)], ownerSessions := [], transitioningOwners := [] }

theorem c6_reveal_awards_time_bonus_witness :
    ∃ room', alookup "R" (revealAnswers "R" w6State).1.rooms = some room' ∧
      alookup "s1" room'.quizState.scores = some (some 110) ∧
      alookup "s2" room'.quizState.scores = some (some 7) := by
  obtain ⟨room1, h1, h2, _⟩ := c6_reveal_awards_time_bonus w6State "R" w6Room w6Q
    ({ id := "s1", name := "A", role := "owner", ready := false })
    (by decide) (by decide) (by decide) (by decide)
  obtain ⟨room2, g1, _, g3⟩ := c6_reveal_awards_time_bonus w6State "R" w6Room w6Q
    ({ id := "s2", name := "B", role := "guest", ready := false })
    (by decide) (by decide) (by decide) (by decide)
  have hroomeq : room2 = room1 := Option.some.inj (g1.symm.trans h1)
  have hs1 := h2 ({ option := 1, timeLeft := 10 }) 0 (by decide) (by decide) (by decide)
  have hs2 := g3 (Or.inr ⟨{ option := 0, timeLeft := 5 }, by decide, by decide⟩)
  refine ⟨room1, h1, ?_, ?_⟩
  · rw [hs1]
    norm_num [max_def]
  · rw [← hroomeq, hs2]
    decide

/-- `updateFirst` preserves length. -/
theorem length_updateFirst {α : Type} (p : α → Bool) (f : α → α) (l : List α) :
    (updateFirst p f l).length = l.length := by
  induction l with
  | nil => rfl
  | cons x xs ih =>
    by_cases hp : p x
    · simp [updateFirst, hp]
    · simp [updateFirst, hp, ih]

/-- Every room of the store has at most two participants. -/
def playersBounded (rooms : List (String × Room)) : Prop :=
  ∀ rid room, alookup rid rooms = some room → room.players.length ≤ 2

theorem playersBounded_aset {rooms : List (String × Room)} {k : String} {r : Room}
    (h : playersBounded rooms) (hr : r.players.length ≤ 2) :
    playersBounded (aset k r rooms) := by
  intro rid room hl
  rcases alookup_aset_cases hl with ⟨_, rfl⟩ | hl'
  · exact hr
  · exact h _ _ hl'

theorem playersBounded_aerase {rooms : List (String × Room)} {k : String}
    (h : playersBounded rooms) : playersBounded (aerase k rooms) := by
  intro rid room hl
  exact h _ _ (alookup_aerase_cases hl).2

/-- `handleOwnerRoomCreation` either leaves the room store unchanged or
deletes exactly one room. -/
theorem hoc_rooms_cases (pn rid : String) (st : ServerState) :
    (handleOwnerRoomCreation pn rid st).1.rooms = st.rooms ∨
    ∃ k, (handleOwnerRoomCreation pn rid st).1.rooms = aerase k st.rooms := by
  unfold handleOwnerRoomCreation
  cases hs : alookup pn st.ownerSessions with
  | none => left; rfl
  | some s =>
    by_cases hc : s.currentRoomId ≠ "" ∧ s.currentRoomId ≠ rid
    · cases hr : alookup s.currentRoomId st.rooms with
      | none => left; simp [hc.1, hc.2, hr]
      | some oldRoom =>
        right
        exact ⟨s.currentRoomId, by simp [hc.1, hc.2, hr]⟩
    · left; simp [hc]

theorem joinOwnerStep_bounded (playerName roomId role : String) (st : ServerState)
    (h : playersBounded st.rooms) :
    playersBounded (joinOwnerStep playerName roomId role st).1.rooms := by
  unfold joinOwnerStep
  by_cases hrole : role = "owner"
  · simp only [hrole, reduceIte]
    rcases hoc_rooms_cases playerName roomId st with he | ⟨k, he⟩
    · rw [he]; exact h
    · rw [he]; exact playersBounded_aerase h
  · simp only [hrole, if_false, reduceIte]
    exact h

theorem joinRoom_bounded (sock : Socket) (roomId playerName role : String) (st : ServerState)
    (h : playersBounded st.rooms) :
    playersBounded (joinRoom sock roomId playerName role st).1.rooms := by
  have h1 := joinOwnerStep_bounded playerName roomId role st h
  unfold joinRoom
  generalize joinOwnerStep playerName roomId role st = stp at h1 ⊢
  cases hl2 : alookup roomId stp.1.rooms with
  | none =>
    have h2 : playersBounded (aset roomId initialRoom stp.1.rooms) :=
      playersBounded_aset h1 (by simp [initialRoom])
    simp only [hl2, alookup_aset_self, initialRoom, List.find?_nil]
    split
    · exact fun rid room hl => (playersBounded_aset h2 (by simp [initialRoom])) _ _ hl
    · refine fun rid room hl =>
        (playersBounded_aset (playersBounded_aset h2 (by simp [initialRoom])) ?_) _ _ hl
      simp
  | some room =>
    have hb : room.players.length ≤ 2 := h1 _ _ hl2
    simp only [hl2]
    cases hf : room.players.find? (fun p => p.name == playerName && p.role == role) with
    | none =>
      simp only [hf]
      split
      · exact fun rid r hl => (playersBounded_aset h1 hb) _ _ hl
      · rename_i hlen
        refine fun rid r hl => (playersBounded_aset (playersBounded_aset h1 hb) ?_) _ _ hl
        simp only [List.length_append, List.length_cons, List.length_nil]
        omega
    | some ep =>
      have hfb : (room.players.filter
          (fun p => !(p.name == playerName && p.role == role))).length ≤ 2 :=
        le_trans (List.length_filter_le _ _) hb
      simp only [hf]
      split
      · exact fun rid r hl => (playersBounded_aset h1 hfb) _ _ hl
      · rename_i hlen
        refine fun rid r hl => (playersBounded_aset (playersBounded_aset h1 hfb) ?_) _ _ hl
        simp only [List.length_append, List.length_cons, List.length_nil]
        omega

theorem disconnectOwnerSessionCleanup_rooms (sock : Socket) (rid : String) (st : ServerState) :
    (disconnectOwnerSessionCleanup sock rid st).rooms = st.rooms := by
  unfold disconnectOwnerSessionCleanup
  split
  · cases hpn : sock.playerName with
    | none => rfl
    | some pn =>
      simp only [hpn]
      cases hs : alookup pn st.ownerSessions with
      | none => simp only [hs]
      | some s =>
        simp only [hs]
        split <;> rfl
  · rfl

theorem modeSelectJoin_bounded (sock : Socket) (roomId playerName role : String)
    (st : ServerState) (h : playersBounded st.rooms) :
    playersBounded (modeSelectJoin sock roomId playerName role false st).1.rooms := by
  unfold modeSelectJoin
  split
  · exact h
  · cases hl : alookup roomId st.rooms with
    | none =>
      simp only [hl, Bool.false_eq_true, if_false, reduceIte]
      exact h
    | some room =>
      simp only [hl]
      unfold modeSelectJoinCore
      have hb : room.players.length ≤ 2 := h _ _ hl
      simp only [msjClearTransition_rooms, hl]
      cases hf : room.players.find? (fun p => p.name == playerName && p.role == role) with
      | some ep =>
        simp only [hf]
        refine fun rid r hl' => (playersBounded_aset h ?_) _ _ hl'
        simp only [length_updateFirst]
        exact hb
      | none =>
        simp only [hf, Bool.false_eq_true, if_false, reduceIte]
        split
        · rename_i hcond
          refine fun rid r hl' => (playersBounded_aset h ?_) _ _ hl'
          simp only [List.length_append, List.length_cons, List.length_nil]
          omega
        · exact fun rid r hl' => (playersBounded_aset h hb) _ _ hl'

theorem leaveRoom_bounded (sock : Socket) (roomId : String) (st : ServerState)
    (h : playersBounded st.rooms) :
    playersBounded (leaveRoom sock roomId st).1.rooms := by
  unfold leaveRoom
  split
  · cases hl : alookup roomId st.rooms with
    | none => simp only [hl]; exact h
    | some room =>
      simp only [hl]
      split
      · exact playersBounded_aerase h
      · exact playersBounded_aset h (le_trans (List.length_filter_le _ _) (h _ _ hl))
  · exact h

theorem disconnectHandler_bounded (sock : Socket) (st : ServerState)
    (h : playersBounded st.rooms) :
    playersBounded (disconnectHandler sock st).1.rooms := by
  unfold disconnectHandler
  split
  · exact h
  · cases hrid : sock.roomId with
    | none => exact h
    | some rid =>
      cases hl : alookup rid st.rooms with
      | none => simp only [hl]; exact h
      | some room =>
        simp only [hl]
        have hev : playersBounded (disconnectEvict sock rid room st).1.rooms := by
          unfold disconnectEvict
          have h1 : playersBounded (disconnectOwnerSessionCleanup sock rid st).rooms := by
            rw [disconnectOwnerSessionCleanup_rooms]; exact h
          by_cases hz : (List.filter (fun p => !(p.id == sock.id)) room.players).length = 0
          · simp only [hz, if_true, reduceIte]
            exact playersBounded_aerase h1
          · simp only [hz, if_false, reduceIte]
            exact playersBounded_aset h1
              (le_trans (List.length_filter_le _ _) (h _ _ hl))
        split
        · exact h
        · exact hev

/-- A `join_room` that still sees two (or more) participants after the
duplicate-identity removal is rejected with `room_full`, adding no
participant. -/
theorem joinRoom_full_reject (sock : Socket) (st : ServerState) (rid pn role : String)
    (room : Room)
    (hroom : alookup rid st.rooms = some room)
    (hlen : (room.players.filter (fun p => !(p.name == pn && p.role == role))).length ≥ 2) :
    SAction.emitSelf "room_full" ∈ (joinRoom sock rid pn role st).2.2 ∧
    (joinRoom sock rid pn role st).2.1 = sock ∧
    (∃ room', alookup rid (joinRoom sock rid pn role st).1.rooms = some room' ∧
      room'.players = room.players.filter (fun p => !(p.name == pn && p.role == role))) := by
  unfold joinRoom
  simp only [joinOwnerStep_rooms, hroom]
  cases hf : room.players.find? (fun p => p.name == pn && p.role == role) with
  | some ep =>
    simp only [hf]
    rw [if_pos hlen]
    exact ⟨List.mem_append_right _ (List.mem_singleton.mpr rfl), rfl,
      ⟨_, alookup_aset_self _ _ _, rfl⟩⟩
  | none =>
    have hfe : room.players.filter (fun p => !(p.name == pn && p.role == role))
        = room.players := by
      rw [List.filter_eq_self]
      intro a ha
      have h2 := List.find?_eq_none.mp hf a ha
      cases hb : (a.name == pn && a.role == role) with
      | false => rfl
      | true => exact absurd hb h2
    simp only [hf]
    rw [hfe] at hlen
    rw [if_pos hlen]
    exact ⟨List.mem_append_right _ (List.mem_singleton.mpr rfl), rfl,
      ⟨_, alookup_aset_self _ _ _, hfe.symm⟩⟩

/-- **C4 (amended).** Under `join_room`, non-recovery `mode_select_join`,
`leave_room` and `disconnect`, no room's participant list ever exceeds 2
entries, and a `join_room` that still sees 2 participants after
duplicate-identity removal is rejected with `room_full`, adding nothing.
(The original claim's further assertions fail: `join_room` does not
enforce role uniqueness, and recovery-mode `mode_select_join` can push a
third participant — see the counterexample.) -/
theorem c4_capacity_bound_and_room_full
    (st : ServerState) (sock : Socket) (rid pn role : String)
    (h : playersBounded st.rooms) :
    playersBounded (joinRoom sock rid pn role st).1.rooms ∧
    playersBounded (modeSelectJoin sock rid pn role false st).1.rooms ∧
    playersBounded (leaveRoom sock rid st).1.rooms ∧
    playersBounded (disconnectHandler sock st).1.rooms ∧
    (∀ room, alookup rid st.rooms = some room →
      (room.players.filter (fun p => !(p.name == pn && p.role == role))).length ≥ 2 →
      SAction.emitSelf "room_full" ∈ (joinRoom sock rid pn role st).2.2 ∧
      (joinRoom sock rid pn role st).2.1 = sock ∧
      (∃ room', alookup rid (joinRoom sock rid pn role st).1.rooms = some room' ∧
        room'.players
          = room.players.filter (fun p => !(p.name == pn && p.role == role)))) :=
  ⟨joinRoom_bounded sock rid pn role st h,
    modeSelectJoin_bounded sock rid pn role st h,
    leaveRoom_bounded sock rid st h,
    disconnectHandler_bounded sock st h,
    fun room hroom hlen => joinRoom_full_reject sock st rid pn role room hroom hlen⟩

theorem playersBounded_single (rid : String) (room : Room) (h : room.players.length ≤ 2) :
    playersBounded [(rid, room)] := by
  intro r rm hl
  simp only [alookup] at hl
  split at hl
  · exact (Option.some.inj hl) ▸ h
  · exact absurd hl (by simp [alookup])

/-- Concrete runs violating the original C4: two same-role participants
via `join_room`, and a third participant via recovery `mode_select_join`. -/
def c4EmptyState : ServerState := { rooms := [], ownerSessions := [], transitioningOwners := [] }

def c4Sock (i : String) : Socket := { id := i, roomId := none, playerName := none, role := none }

def c4RunTwoOwners : ServerState :=
  (joinRoom (c4Sock "s2") "R" "B" "owner"
    (joinRoom (c4Sock "s1") "R" "A" "owner" c4EmptyState).1).1

def c4RunThree : ServerState :=
  (modeSelectJoin (c4Sock "s3") "R" "C" "guest" true
    (joinRoom (c4Sock "s2") "R" "B" "guest"
      (joinRoom (c4Sock "s1") "R" "A" "owner" c4EmptyState).1).1).1

/-- **C4 counterexample.** `join_room` accepts a second Owner under a
different name (two participants share the role `owner`), and a
recovery-mode `mode_select_join` pushes a third participant. -/
theorem c4_invariant_violated_counterexample :
    (alookup "R" c4RunTwoOwners.rooms).map (fun r => r.players.map (fun p => (p.name, p.role)))
      = some [("A", "owner"), ("B", "owner")] ∧
    (alookup "R" c4RunThree.rooms).map (fun r => r.players.length) = some 3 := by
  decide

theorem c4_capacity_bound_and_room_full_witness :
    playersBounded (joinRoom (c4Sock "s3") "R" "A" "guest" wState).1.rooms ∧
    playersBounded (modeSelectJoin (c4Sock "s3") "R" "A" "guest" false wState).1.rooms ∧
    playersBounded (leaveRoom (c4Sock "s3") "R" wState).1.rooms ∧
    playersBounded (disconnectHandler (c4Sock "s3") wState).1.rooms ∧
    (SAction.emitSelf "room_full" ∈ (joinRoom (c4Sock "s3") "R" "C" "guest" wState).2.2 ∧
      (joinRoom (c4Sock "s3") "R" "C" "guest" wState).2.1 = c4Sock "s3" ∧
      (∃ room', alookup "R" (joinRoom (c4Sock "s3") "R" "C" "guest" wState).1.rooms
          = some room' ∧
        room'.players
          = wRoom.players.filter (fun p => !(p.name == "C" && p.role == "guest")))) := by
  have h1 := c4_capacity_bound_and_room_full wState (c4Sock "s3") "R" "A" "guest"
    (playersBounded_single "R" wRoom (by decide))
  have h2 := (c4_capacity_bound_and_room_full wState (c4Sock "s3") "R" "C" "guest"
    (playersBounded_single "R" wRoom (by decide))).2.2.2.2
    wRoom (by decide) (by decide)
  exact ⟨h1.1, h1.2.1, h1.2.2.1, h1.2.2.2.1, h2⟩

/-! ### Key-set lemmas for the score-map consistency invariant -/

theorem mem_akeys_iff_isSome {α : Type} (k : String) (l : List (String × α)) :
    k ∈ akeys l ↔ (alookup k l).isSome = true := by
  induction l with
  | nil => simp [akeys, alookup]
  | cons e rest ih =>
    by_cases he : e.1 = k
    · simp [akeys, alookup, he]
    · have hne : k ≠ e.1 := fun hk => he hk.symm
      have h1 : k ∈ akeys (e :: rest) ↔ k ∈ akeys rest := by simp [akeys, hne]
      have h2 : alookup k (e :: rest) = alookup k rest := by simp [alookup, he]
      rw [h1, h2, ih]

theorem mem_akeys_aset {α : Type} {k k' : String} {v : α} {l : List (String × α)}
    (h : k' ∈ akeys (aset k v l)) : k' = k ∨ k' ∈ akeys l := by
  induction l with
  | nil => simpa [aset, akeys] using h
  | cons e rest ih =>
    by_cases he : e.1 = k
    · simp only [aset, he, if_pos rfl, reduceIte, akeys, List.map_cons, List.mem_cons] at h
      rcases h with h | h
      · exact Or.inl h
      · exact Or.inr (by simp [akeys, h])
    · simp only [aset, he, if_false, reduceIte, akeys, List.map_cons, List.mem_cons] at h
      rcases h with h | h
      · exact Or.inr (by simp [akeys, h])
      · rcases ih h with h' | h'
        · exact Or.inl h'
        · exact Or.inr (by simp [akeys]; exact Or.inr (by simpa [akeys] using h'))

theorem mem_akeys_aset_self {α : Type} (k : String) (v : α) (l : List (String × α)) :
    k ∈ akeys (aset k v l) := by
  rw [mem_akeys_iff_isSome, alookup_aset_self]
  rfl

theorem mem_akeys_aset_of_mem {α : Type} {k' : String} (k : String) (v : α)
    {l : List (String × α)} (h : k' ∈ akeys l) : k' ∈ akeys (aset k v l) := by
  by_cases he : k' = k
  · subst he; exact mem_akeys_aset_self _ _ _
  · rw [mem_akeys_iff_isSome, alookup_aset_ne _ _ he, ← mem_akeys_iff_isSome]
    exact h

theorem mem_akeys_aerase {α : Type} {k k' : String} {l : List (String × α)}
    (h : k' ∈ akeys (aerase k l)) : k' ≠ k ∧ k' ∈ akeys l := by
  induction l with
  | nil => simp [aerase, akeys] at h
  | cons e rest ih =>
    by_cases he : e.1 = k
    · rw [aerase, if_pos he] at h
      rcases ih h with ⟨h1, h2⟩
      exact ⟨h1, by simp [akeys]; exact Or.inr (by simpa [akeys] using h2)⟩
    · rw [aerase, if_neg he] at h
      simp only [akeys, List.map_cons, List.mem_cons] at h
      rcases h with h | h
      · subst h
        exact ⟨he, by simp [akeys]⟩
      · rcases ih h with ⟨h1, h2⟩
        exact ⟨h1, by simp [akeys]; exact Or.inr (by simpa [akeys] using h2)⟩

theorem nodup_akeys_aset {α : Type} (k : String) (v : α) {l : List (String × α)}
    (h : (akeys l).Nodup) : (akeys (aset k v l)).Nodup := by
  induction l with
  | nil => simp [aset, akeys]
  | cons e rest ih =>
    rw [akeys, List.map_cons, List.nodup_cons] at h
    by_cases he : e.1 = k
    · rw [aset, if_pos he]
      simp only [akeys, List.map_cons, List.nodup_cons]
      exact ⟨he ▸ h.1, h.2⟩
    · rw [aset, if_neg he]
      simp only [akeys, List.map_cons, List.nodup_cons]
      refine ⟨fun hmem => ?_, ih h.2⟩
      rcases mem_akeys_aset (by simpa [akeys] using hmem) with h' | h'
      · exact he h'
      · exact h.1 (by simpa [akeys] using h')

theorem nodup_akeys_aerase {α : Type} (k : String) {l : List (String × α)}
    (h : (akeys l).Nodup) : (akeys (aerase k l)).Nodup := by
  induction l with
  | nil => simp [aerase, akeys]
  | cons e rest ih =>
    rw [akeys, List.map_cons, List.nodup_cons] at h
    by_cases he : e.1 = k
    · rw [aerase, if_pos he]
      exact ih h.2
    · rw [aerase, if_neg he]
      simp only [akeys, List.map_cons, List.nodup_cons]
      refine ⟨fun hmem => ?_, ih h.2⟩
      exact h.1 (by simpa [akeys] using (mem_akeys_aerase (by simpa [akeys] using hmem)).2)

/-! ### updateFirst / extractFirst membership lemmas -/

theorem mem_updateFirst_cases {α : Type} {p : α → Bool} {f : α → α} {l : List α} {x : α}
    (h : x ∈ updateFirst p f l) :
    x ∈ l ∨ ∃ x₀, x₀ ∈ l ∧ p x₀ = true ∧ x = f x₀ := by
  induction l with
  | nil => simp [updateFirst] at h
  | cons a rest ih =>
    by_cases hp : p a
    · rw [updateFirst, if_pos hp] at h
      rcases List.mem_cons.mp h with h' | h'
      · exact Or.inr ⟨a, List.mem_cons_self _ _, hp, h'⟩
      · exact Or.inl (List.mem_cons_of_mem _ h')
    · rw [updateFirst, if_neg hp] at h
      rcases List.mem_cons.mp h with h' | h'
      · exact Or.inl (h' ▸ List.mem_cons_self _ _)
      · rcases ih h' with h'' | ⟨x₀, hm, hpx, hfx⟩
        · exact Or.inl (List.mem_cons_of_mem _ h'')
        · exact Or.inr ⟨x₀, List.mem_cons_of_mem _ hm, hpx, hfx⟩

theorem mem_updateFirst_of_not_pred {α : Type} {p : α → Bool} (f : α → α) {l : List α} {x : α}
    (h : x ∈ l) (hp : p x = false) : x ∈ updateFirst p f l := by
  induction l with
  | nil => cases h
  | cons a rest ih =>
    by_cases hpa : p a
    · rw [updateFirst, if_pos hpa]
      rcases List.mem_cons.mp h with h' | h'
      · subst h'
        rw [hpa] at hp
        cases hp
      · exact List.mem_cons_of_mem _ h'
    · rw [updateFirst, if_neg hpa]
      rcases List.mem_cons.mp h with h' | h'
      · exact h' ▸ List.mem_cons_self _ _
      · exact List.mem_cons_of_mem _ (ih h')

theorem mem_updateFirst_updated {α : Type} {p : α → Bool} (f : α → α) {l : List α} {ep : α}
    (h : l.find? p = some ep) : f ep ∈ updateFirst p f l := by
  induction l with
  | nil => simp [List.find?] at h
  | cons a rest ih =>
    by_cases hpa : p a
    · rw [List.find?_cons_of_pos _ hpa] at h
      rw [updateFirst, if_pos hpa]
      exact (Option.some.inj h) ▸ List.mem_cons_self _ _
    · rw [List.find?_cons_of_neg _ hpa] at h
      rw [updateFirst, if_neg hpa]
      exact List.mem_cons_of_mem _ (ih h)

theorem nodup_map_updateFirst {α β : Type} {p : α → Bool} {f : α → α} (g : α → β)
    {l : List α} {y : β}
    (hg : ∀ x, g (f x) = y)
    (hnd : (l.map g).Nodup) (hfresh : ∀ x ∈ l, g x ≠ y) :
    ((updateFirst p f l).map g).Nodup := by
  induction l with
  | nil => simp [updateFirst]
  | cons a rest ih =>
    rw [List.map_cons, List.nodup_cons] at hnd
    by_cases hpa : p a
    · rw [updateFirst, if_pos hpa, List.map_cons, List.nodup_cons, hg a]
      refine ⟨fun hy => ?_, hnd.2⟩
      rcases List.mem_map.mp hy with ⟨x, hx, hgx⟩
      exact hfresh x (List.mem_cons_of_mem _ hx) hgx
    · rw [updateFirst, if_neg hpa, List.map_cons, List.nodup_cons]
      refine ⟨fun hmem => ?_, ih hnd.2 (fun x hx => hfresh x (List.mem_cons_of_mem _ hx))⟩
      rcases List.mem_map.mp hmem with ⟨x, hx, hgx⟩
      rcases mem_updateFirst_cases hx with h' | ⟨x₀, hm, _, hfx⟩
      · exact hnd.1 (hgx ▸ List.mem_map_of_mem g h')
      · subst hfx
        rw [hg x₀] at hgx
        exact hfresh a (List.mem_cons_self _ _) hgx.symm

theorem extractFirst_structure {α : Type} {p : α → Bool} {l : List α} {x : α} {xs : List α}
    (h : extractFirst p l = some (x, xs)) :
    ∃ l1 l2, l = l1 ++ x :: l2 ∧ xs = l1 ++ l2 ∧ p x = true := by
  induction l generalizing xs with
  | nil => simp [extractFirst] at h
  | cons a rest ih =>
    by_cases hpa : p a
    · rw [extractFirst, if_pos hpa] at h
      obtain ⟨h1, h2⟩ := Prod.mk.injEq .. ▸ Option.some.inj h
      exact ⟨[], rest, by simp [h1], by simp [h2], h1 ▸ hpa⟩
    · rw [extractFirst, if_neg hpa] at h
      cases hr : extractFirst p rest with
      | none => rw [hr] at h; cases h
      | some r =>
        obtain ⟨r1, r2⟩ := r
        rw [hr] at h
        simp only [Option.map_some'] at h
        obtain ⟨h1, h2⟩ := Prod.mk.injEq .. ▸ Option.some.inj h
        obtain ⟨l1, l2, hl, hxs, hpx⟩ :=
          ih (show extractFirst p rest = some (x, r2) by rw [hr, h1])
        exact ⟨a :: l1, l2, by simp [hl], by simp [← h2, hxs], hpx⟩

/-- Consistency of a room's participant list with its score map, plus
the structural facts (distinct connection ids, distinct identities)
that every reachable room satisfies: every participant has exactly one
score entry keyed by its current connection id, and no score entry
belongs to a non-participant. -/
def RoomWF (room : Room) : Prop :=
  (room.players.map (fun p => p.id)).Nodup ∧
  (room.players.map (fun p => (p.name, p.role))).Nodup ∧
  (∀ p ∈ room.players, (alookup p.id room.quizState.scores).isSome = true) ∧
  (∀ k ∈ akeys room.quizState.scores, ∃ p, p ∈ room.players ∧ p.id = k) ∧
  (akeys room.quizState.scores).Nodup

instance (room : Room) : Decidable (RoomWF room) := by
  unfold RoomWF
  infer_instance

theorem nodup_map_filter {α β : Type} (g : α → β) (q : α → Bool) {l : List α}
    (h : (l.map g).Nodup) : ((l.filter q).map g).Nodup :=
  h.sublist (List.Sublist.map g (List.filter_sublist l))

theorem joinRoom_preserves_WF
    (sock : Socket) (st : ServerState) (rid pn role : String) (room : Room)
    (hroom : alookup rid st.rooms = some room)
    (hwf : RoomWF room)
    (hrole : role ≠ "")
    (hfresh : ∀ p ∈ room.players, p.id ≠ sock.id)
    (hcap : (room.players.filter (fun p => !(p.name == pn && p.role == role))).length < 2) :
    ∃ room', alookup rid (joinRoom sock rid pn role st).1.rooms = some room' ∧ RoomWF room' := by
  obtain ⟨hids, hpairs, hfwd, horph, hkeys⟩ := hwf
  unfold joinRoom
  simp only [joinOwnerStep_rooms, hroom]
  cases hf : room.players.find? (fun p => p.name == pn && p.role == role) with
  | some ep =>
    have hepmem : ep ∈ room.players := List.mem_of_find?_eq_some hf
    have hepnr : ep.name = pn ∧ ep.role = role := by
      have h := List.find?_some hf
      simpa using h
    have hlen : ¬(room.players.filter (fun p => !(p.name == pn && p.role == role))).length ≥ 2 := by
      omega
    simp only [hf, hlen, if_false, reduceIte, if_neg hrole]
    refine ⟨_, alookup_aset_self _ _ _, ?_, ?_, ?_, ?_, ?_⟩
    · -- distinct connection ids
      simp only [List.map_append, List.map_cons, List.map_nil, List.nodup_append]
      refine ⟨nodup_map_filter _ _ hids, List.nodup_singleton _, ?_⟩
      intro a ha
      rcases List.mem_map.mp ha with ⟨q, hq, hqa⟩
      have hqmem := (List.mem_filter.mp hq).1
      simp only [List.mem_singleton]
      exact fun he => hfresh q hqmem (hqa.trans he)
    · -- distinct (displayName, role) identities
      simp only [List.map_append, List.map_cons, List.map_nil, List.nodup_append]
      refine ⟨nodup_map_filter _ _ hpairs, List.nodup_singleton _, ?_⟩
      intro a ha
      rcases List.mem_map.mp ha with ⟨q, hq, hqa⟩
      have hqpred := (List.mem_filter.mp hq).2
      simp only [List.mem_singleton]
      intro he
      have : q.name = pn ∧ q.role = role := by
        have := hqa.trans he
        exact ⟨congrArg Prod.fst this, congrArg Prod.snd this⟩
      simp [this.1, this.2] at hqpred
    · -- every participant keeps exactly one entry under its current id
      intro q hq
      rcases List.mem_append.mp hq with hq' | hq'
      · have hqmem := (List.mem_filter.mp hq').1
        have hqpred := (List.mem_filter.mp hq').2
        have hqid : q.id ≠ sock.id := hfresh q hqmem
        have hqep : q.id ≠ ep.id := by
          intro he
          have : q = ep := List.inj_on_of_nodup_map hids hqmem hepmem he
          subst this
          simp [hepnr.1, hepnr.2] at hqpred
        rw [alookup_aset_ne _ _ hqid, alookup_aerase_ne _ hqep]
        exact hfwd q hqmem
      · rw [List.mem_singleton.mp hq']
        rw [alookup_aset_self]
        rfl
    · -- no orphan entries
      intro k hk
      rcases mem_akeys_aset hk with hk' | hk'
      · subst hk'
        exact ⟨_, List.mem_append_right _ (List.mem_singleton.mpr rfl), rfl⟩
      · obtain ⟨hkep, hkmem⟩ := mem_akeys_aerase hk'
        obtain ⟨q, hqmem, hqid⟩ := horph k hkmem
        have hqep : q ≠ ep := fun he => hkep (by rw [← hqid, he])
        have hqpred : (q.name == pn && q.role == role) = false := by
          by_contra hc
          have hc' : (q.name == pn && q.role == role) = true := by
            cases hb : (q.name == pn && q.role == role) with
            | false => exact absurd hb hc
            | true => rfl
          have hqnr : q.name = pn ∧ q.role = role := by simpa using hc'
          have : q = ep := List.inj_on_of_nodup_map hpairs hqmem hepmem
            (by rw [hqnr.1, hqnr.2, hepnr.1, hepnr.2])
          exact hqep this
        refine ⟨q, List.mem_append_left _ (List.mem_filter.mpr ⟨hqmem, ?_⟩), hqid⟩
        simp [hqpred]
    · exact nodup_akeys_aset _ _ (nodup_akeys_aerase _ hkeys)
  | none =>
    have hnone := List.find?_eq_none.mp hf
    have hfe : room.players.filter (fun p => !(p.name == pn && p.role == role))
        = room.players := by
      rw [List.filter_eq_self]
      intro a ha
      cases hb : (a.name == pn && a.role == role) with
      | false => rfl
      | true => exact absurd hb (hnone a ha)
    have hlen : ¬room.players.length ≥ 2 := by
      rw [hfe] at hcap
      omega
    simp only [hf, hlen, if_false, reduceIte, if_neg hrole]
    refine ⟨_, alookup_aset_self _ _ _, ?_, ?_, ?_, ?_, ?_⟩
    · simp only [List.map_append, List.map_cons, List.map_nil, List.nodup_append]
      refine ⟨hids, List.nodup_singleton _, ?_⟩
      intro a ha
      rcases List.mem_map.mp ha with ⟨q, hq, hqa⟩
      simp only [List.mem_singleton]
      exact fun he => hfresh q hq (hqa.trans he)
    · simp only [List.map_append, List.map_cons, List.map_nil, List.nodup_append]
      refine ⟨hpairs, List.nodup_singleton _, ?_⟩
      intro a ha
      rcases List.mem_map.mp ha with ⟨q, hq, hqa⟩
      simp only [List.mem_singleton]
      intro he
      have hqnr : q.name = pn ∧ q.role = role := by
        have := hqa.trans he
        exact ⟨congrArg Prod.fst this, congrArg Prod.snd this⟩
      have := hnone q hq
      simp [hqnr.1, hqnr.2] at this
    · intro q hq
      rcases List.mem_append.mp hq with hq' | hq'
      · rw [alookup_aset_ne _ _ (hfresh q hq')]
        exact hfwd q hq'
      · rw [List.mem_singleton.mp hq', alookup_aset_self]
        rfl
    · intro k hk
      rcases mem_akeys_aset hk with hk' | hk'
      · subst hk'
        exact ⟨_, List.mem_append_right _ (List.mem_singleton.mpr rfl), rfl⟩
      · obtain ⟨q, hqmem, hqid⟩ := horph k hk'
        exact ⟨q, List.mem_append_left _ hqmem, hqid⟩
    · exact nodup_akeys_aset _ _ hkeys

/-- With distinct (name, role) identities, updating the first match of
`mode_select_join`'s duplicate predicate touches exactly the found
participant: every member of the updated list is either an untouched
non-matching original or the updated participant. -/
theorem mem_updateFirst_pred_unique (pn role : String) {pr : Player → Bool}
    {f : Player → Player} {l : List Player} {ep : Player}
    (hpr : ∀ x, pr x = true ↔ (x.name = pn ∧ x.role = role))
    (hpairs : (l.map (fun p => (p.name, p.role))).Nodup)
    (hf : l.find? pr = some ep) :
    ∀ q ∈ updateFirst pr f l, (q ∈ l ∧ pr q = false) ∨ q = f ep := by
  induction l with
  | nil => simp [List.find?] at hf
  | cons a rest ih =>
    by_cases hpa : pr a = true
    · rw [List.find?_cons_of_pos _ hpa] at hf
      obtain rfl := Option.some.inj hf
      intro q hq
      rw [updateFirst, if_pos hpa] at hq
      rcases List.mem_cons.mp hq with h | h
      · exact Or.inr h
      · left
        refine ⟨List.mem_cons_of_mem _ h, ?_⟩
        cases hb : pr q with
        | false => rfl
        | true =>
          exfalso
          have hq1 := (hpr q).mp hb
          have ha1 := (hpr a).mp hpa
          rw [List.map_cons, List.nodup_cons] at hpairs
          exact hpairs.1
            (List.mem_map.mpr ⟨q, h, by rw [hq1.1, hq1.2, ha1.1, ha1.2]⟩)
    · rw [List.find?_cons_of_neg _ hpa] at hf
      intro q hq
      rw [updateFirst, if_neg hpa] at hq
      rcases List.mem_cons.mp hq with h | h
      · subst h
        refine Or.inl ⟨List.mem_cons_self _ _, ?_⟩
        cases hb : pr q with
        | false => rfl
        | true => exact absurd hb hpa
      · rw [List.map_cons, List.nodup_cons] at hpairs
        rcases ih hpairs.2 hf q h with ⟨hm, hp⟩ | he
        · exact Or.inl ⟨List.mem_cons_of_mem _ hm, hp⟩
        · exact Or.inr he

theorem modeSelectJoin_reconnect_preserves_WF
    (sock : Socket) (st : ServerState) (rid pn role : String) (room : Room) (ep : Player)
    (hrid : rid ≠ "") (hpn : pn ≠ "") (hrole : role ≠ "")
    (hroom : alookup rid st.rooms = some room)
    (hwf : RoomWF room)
    (hep : room.players.find? (fun p => p.name == pn && p.role == role) = some ep)
    (hfresh : ∀ p ∈ room.players, p.id ≠ sock.id) :
    ∃ room', alookup rid (modeSelectJoin sock rid pn role false st).1.rooms = some room' ∧
      RoomWF room' := by
  obtain ⟨hids, hpairs, hfwd, horph, hkeys⟩ := hwf
  have hepmem : ep ∈ room.players := List.mem_of_find?_eq_some hep
  have hepnr : ep.name = pn ∧ ep.role = role := by
    have h := List.find?_some hep
    simpa using h
  obtain ⟨v, hv⟩ := Option.isSome_iff_exists.mp (hfwd ep hepmem)
  have hepfresh : ep.id ≠ sock.id := hfresh ep hepmem
  have hval : ¬(rid = "" ∨ pn = "" ∨ role = "") := by simp [hrid, hpn, hrole]
  unfold modeSelectJoin modeSelectJoinCore
  simp only [hval, hroom, msjClearTransition_rooms, hep, hv, if_false, reduceIte]
  refine ⟨_, alookup_aset_self _ _ _, ?_, ?_, ?_, ?_, ?_⟩
  · exact nodup_map_updateFirst _ (fun x => rfl) hids (fun x hx => hfresh x hx)
  · rw [map_updateFirst (fun p : Player => p.name == pn && p.role == role)
      (fun p => { p with id := sock.id }) (fun p => (p.name, p.role))
      room.players (fun x => rfl)]
    exact hpairs
  · intro q hq
    rcases mem_updateFirst_pred_unique pn role (fun x => by simp) hpairs hep q hq
      with ⟨hm, hp⟩ | he
    · have hqsock : q.id ≠ sock.id := hfresh q hm
      have hqep : q.id ≠ ep.id := by
        intro heq
        have : q = ep := List.inj_on_of_nodup_map hids hm hepmem heq
        subst this
        simp [hepnr.1, hepnr.2] at hp
      rw [alookup_aerase_ne _ hqep, alookup_aset_ne _ _ hqsock]
      exact hfwd q hm
    · subst he
      rw [show ({ ep with id := sock.id } : Player).id = sock.id from rfl,
        alookup_aerase_ne _ (Ne.symm hepfresh), alookup_aset_self]
      rfl
  · intro k hk
    obtain ⟨hkep, hk'⟩ := mem_akeys_aerase hk
    rcases mem_akeys_aset hk' with hk'' | hk''
    · subst hk''
      exact ⟨_, mem_updateFirst_updated _ hep, rfl⟩
    · obtain ⟨q, hqmem, hqid⟩ := horph k hk''
      have hqep : q ≠ ep := fun he => hkep (by rw [← hqid, he])
      have hqpred : (q.name == pn && q.role == role) = false := by
        cases hb : (q.name == pn && q.role == role) with
        | false => rfl
        | true =>
          exfalso
          have hqnr : q.name = pn ∧ q.role = role := by simpa using hb
          exact hqep (List.inj_on_of_nodup_map hpairs hqmem hepmem
            (by rw [hqnr.1, hqnr.2, hepnr.1, hepnr.2]))
      exact ⟨q, mem_updateFirst_of_not_pred _ hqmem hqpred, hqid⟩
  · exact nodup_akeys_aerase _ (nodup_akeys_aset _ _ hkeys)

theorem disconnectEvict_preserves_WF (sock : Socket) (rid : String) (room : Room)
    (st : ServerState) (hwf : RoomWF room) :
    alookup rid (disconnectEvict sock rid room st).1.rooms = none ∨
    (∃ room', alookup rid (disconnectEvict sock rid room st).1.rooms = some room' ∧
      RoomWF room') := by
  obtain ⟨hids, hpairs, hfwd, horph, hkeys⟩ := hwf
  unfold disconnectEvict
  by_cases hz : (List.filter (fun p => !(p.id == sock.id)) room.players).length = 0
  · simp only [hz, if_true, reduceIte]
    exact Or.inl (alookup_aerase_self _ _)
  · simp only [hz, if_false, reduceIte]
    refine Or.inr ⟨_, alookup_aset_self _ _ _, ?_, ?_, ?_, ?_, ?_⟩
    · exact nodup_map_filter _ _ hids
    · exact nodup_map_filter _ _ hpairs
    · intro q hq
      obtain ⟨hqmem, hqb⟩ := List.mem_filter.mp hq
      have hqid : q.id ≠ sock.id := by simpa using hqb
      rw [alookup_aerase_ne _ hqid]
      exact hfwd q hqmem
    · intro k hk
      obtain ⟨hksock, hkmem⟩ := mem_akeys_aerase hk
      obtain ⟨q, hqmem, hqid⟩ := horph k hkmem
      refine ⟨q, List.mem_filter.mpr ⟨hqmem, ?_⟩, hqid⟩
      simp [hqid, hksock]
    · exact nodup_akeys_aerase _ hkeys

theorem disconnect_preserves_WF (sock : Socket) (st : ServerState) (rid : String) (room : Room)
    (hrid : rid ≠ "") (hsock : sock.roomId = some rid)
    (hroom : alookup rid st.rooms = some room) (hwf : RoomWF room) :
    alookup rid (disconnectHandler sock st).1.rooms = none ∨
    (∃ room', alookup rid (disconnectHandler sock st).1.rooms = some room' ∧ RoomWF room') := by
  unfold disconnectHandler
  have hg : (!strTruthy sock.roomId) = false := by simp [hsock, strTruthy, hrid]
  simp only [hg, Bool.false_eq_true, if_false, reduceIte, hsock, hroom]
  split
  · exact Or.inr ⟨room, hroom, hwf⟩
  · split
    all_goals
      first
      | exact Or.inr ⟨room, hroom, hwf⟩
      | exact disconnectEvict_preserves_WF sock rid room st hwf

theorem graceFire_preserves_WF (rid : String) (st : ServerState) (room : Room)
    (info : TransitionInfo) (op : Player) (rest : List Player)
    (hinfo : alookup rid st.transitioningOwners = some info)
    (hroom : alookup rid st.rooms = some room) (hwf : RoomWF room)
    (hext : extractFirst (fun p => p.role == "owner" && some p.name == info.ownerName)
      room.players = some (op, rest)) :
    alookup rid (graceFire rid st).1.rooms = none ∨
    (∃ room', alookup rid (graceFire rid st).1.rooms = some room' ∧ RoomWF room') := by
  obtain ⟨hids, hpairs, hfwd, horph, hkeys⟩ := hwf
  obtain ⟨l1, l2, hl, hrest, _⟩ := extractFirst_structure hext
  have hsub : rest.Sublist room.players := by
    rw [hl, hrest]
    exact (List.sublist_cons_self op l2).append_left l1
  have hopid : ∀ q ∈ rest, q.id ≠ op.id := by
    intro q hq heq
    have hnd := hids
    rw [hl, List.map_append, List.map_cons] at hnd
    rw [hrest] at hq
    rw [List.nodup_append] at hnd
    rcases List.mem_append.mp hq with h | h
    · exact (hnd.2.2 (List.mem_map.mpr ⟨q, h, rfl⟩))
        (by rw [heq]; exact List.mem_cons_self _ _)
    · exact (List.nodup_cons.mp hnd.2.1).1 (heq ▸ List.mem_map.mpr ⟨q, h, rfl⟩)
  have hmem_of_rest : ∀ q ∈ rest, q ∈ room.players := fun q hq => hsub.mem hq
  unfold graceFire
  simp only [hinfo, hroom, hext]
  split
  · exact Or.inl (alookup_aerase_self _ _)
  · refine Or.inr ⟨_, alookup_aset_self _ _ _, ?_, ?_, ?_, ?_, ?_⟩
    · exact hids.sublist (hsub.map _)
    · exact hpairs.sublist (hsub.map _)
    · intro q hq
      rw [alookup_aerase_ne _ (hopid q hq)]
      exact hfwd q (hmem_of_rest q hq)
    · intro k hk
      obtain ⟨hkop, hkmem⟩ := mem_akeys_aerase hk
      obtain ⟨q, hqmem, hqid⟩ := horph k hkmem
      have hqop : q ≠ op := fun he => hkop (by rw [← hqid, he])
      refine ⟨q, ?_, hqid⟩
      rw [hrest]
      rw [hl] at hqmem
      rcases List.mem_append.mp hqmem with h | h
      · exact List.mem_append_left _ h
      · rcases List.mem_cons.mp h with h' | h'
        · exact absurd h' hqop
        · exact List.mem_append_right _ h'
    · exact nodup_akeys_aerase _ hkeys

/-- `leave_room` removes the participant but keeps its score entry: the
surviving room has a score entry under the leaver's connection id and no
participant carrying that id — the consistency invariant is broken. -/
theorem leaveRoom_orphans_score (sock : Socket) (st : ServerState) (rid : String) (room : Room)
    (hrid : rid ≠ "") (hsock : sock.roomId = some rid)
    (hroom : alookup rid st.rooms = some room)
    (hscore : (alookup sock.id room.quizState.scores).isSome = true)
    (hne : room.players.filter (fun q => !(q.id == sock.id)) ≠ []) :
    ∃ room', alookup rid (leaveRoom sock rid st).1.rooms = some room' ∧
      (alookup sock.id room'.quizState.scores).isSome = true ∧
      ∀ q ∈ room'.players, q.id ≠ sock.id := by
  have hlen : ¬(room.players.filter (fun q => !(q.id == sock.id))).length = 0 := by
    simpa [List.length_eq_zero] using hne
  unfold leaveRoom
  simp only [hsock, strTruthy, hrid, hroom, hlen, Bool.not_eq_true', decide_eq_false,
    if_false, reduceIte, and_self, if_true]
  refine ⟨_, alookup_aset_self _ _ _, hscore, ?_⟩
  intro q hq
  have hqb := (List.mem_filter.mp hq).2
  simpa using hqb

/-- **C5 (amended).** The participant/score consistency invariant
(every participant has exactly one score entry keyed by its current
connection id, and no entry belongs to a non-participant) is preserved
by `join_room`, by the reconnect path of `mode_select_join`, by
`disconnect`, and by grace-expiry eviction — for well-formed rooms with
a fresh incoming connection id — but it is *not* preserved by every
operation: `leave_room` removes the participant while keeping its score
entry, leaving an orphaned entry (and `mode_select_join`'s re-adding
branches push participants without score entries — see the
counterexample). -/
theorem c5_score_consistency
    (st : ServerState) (sock : Socket) (rid pn role : String) (room : Room) :
    (alookup rid st.rooms = some room → RoomWF room → role ≠ "" →
      (∀ p ∈ room.players, p.id ≠ sock.id) →
      (room.players.filter (fun p => !(p.name == pn && p.role == role))).length < 2 →
      ∃ room', alookup rid (joinRoom sock rid pn role st).1.rooms = some room' ∧
        RoomWF room') ∧
    (∀ ep, rid ≠ "" → pn ≠ "" → role ≠ "" →
      alookup rid st.rooms = some room → RoomWF room →
      room.players.find? (fun p => p.name == pn && p.role == role) = some ep →
      (∀ p ∈ room.players, p.id ≠ sock.id) →
      ∃ room', alookup rid (modeSelectJoin sock rid pn role false st).1.rooms = some room' ∧
        RoomWF room') ∧
    (rid ≠ "" → sock.roomId = some rid → alookup rid st.rooms = some room → RoomWF room →
      alookup rid (disconnectHandler sock st).1.rooms = none ∨
      (∃ room', alookup rid (disconnectHandler sock st).1.rooms = some room' ∧
        RoomWF room')) ∧
    (∀ info op rest, alookup rid st.transitioningOwners = some info →
      alookup rid st.rooms = some room → RoomWF room →
      extractFirst (fun p => p.role == "owner" && some p.name == info.ownerName)
        room.players = some (op, rest) →
      alookup rid (graceFire rid st).1.rooms = none ∨
      (∃ room', alookup rid (graceFire rid st).1.rooms = some room' ∧ RoomWF room')) ∧
    (rid ≠ "" → sock.roomId = some rid → alookup rid st.rooms = some room →
      (alookup sock.id room.quizState.scores).isSome = true →
      room.players.filter (fun q => !(q.id == sock.id)) ≠ [] →
      ∃ room', alookup rid (leaveRoom sock rid st).1.rooms = some room' ∧
        (alookup sock.id room'.quizState.scores).isSome = true ∧
        ∀ q ∈ room'.players, q.id ≠ sock.id) := by
  refine ⟨?_, ?_, ?_, ?_, ?_⟩
  · intro hroom hwf hrole hfresh hcap
    exact joinRoom_preserves_WF sock st rid pn role room hroom hwf hrole
      (fun p hp => fun he => hfresh p hp he) hcap
  · intro ep hrid hpn hrole hroom hwf hep hfresh
    exact modeSelectJoin_reconnect_preserves_WF sock st rid pn role room ep
      hrid hpn hrole hroom hwf hep hfresh
  · intro hrid hsock hroom hwf
    exact disconnect_preserves_WF sock st rid room hrid hsock hroom hwf
  · intro info op rest hinfo hroom hwf hext
    exact graceFire_preserves_WF rid st room info op rest hinfo hroom hwf hext
  · intro hrid hsock hroom hscore hne
    exact leaveRoom_orphans_score sock st rid room hrid hsock hroom hscore hne

/-- Concrete runs violating the original C5. -/
def c5LeaveSock : Socket :=
  { id := "s2", roomId := some "R", playerName := some "B", role := some "guest" }

def c5RunLeave : ServerState :=
  (leaveRoom c5LeaveSock "R"
    (joinRoom (c4Sock "s2") "R" "B" "guest"
      (joinRoom (c4Sock "s1") "R" "A" "owner" c4EmptyState).1).1).1

def c5RunMsj : ServerState :=
  (modeSelectJoin (c4Sock "s2") "R" "B" "guest" false
    (joinRoom (c4Sock "s1") "R" "A" "owner" c4EmptyState).1).1

/-- **C5 counterexample.** After a `leave_room` the surviving room keeps
the leaver's score entry (`"s2"`) with no participant owning it; after a
re-adding `mode_select_join` the room holds a participant (`"s2"`) with
no score entry. -/
theorem c5_consistency_violated_counterexample :
    ((alookup "R" c5RunLeave.rooms).map
      (fun r => (r.players.map (fun p => p.id), akeys r.quizState.scores))
      = some (["s1"], ["s1", "s2"])) ∧
    ((alookup "R" c5RunMsj.rooms).map
      (fun r => (r.players.map (fun p => p.id), akeys r.quizState.scores))
      = some (["s1", "s2"], ["s1"])) := by
  decide

theorem c5_score_consistency_witness :
    (∃ room', alookup "R" (joinRoom (c4Sock "s7") "R" "B" "guest" wState).1.rooms
        = some room' ∧ RoomWF room') ∧
    (∃ room', alookup "R" (modeSelectJoin (c4Sock "s7") "R" "B" "guest" false wState).1.rooms
        = some room' ∧ RoomWF room') ∧
    (alookup "R" (disconnectHandler wGuestSock wState).1.rooms = none ∨
      (∃ room', alookup "R" (disconnectHandler wGuestSock wState).1.rooms = some room' ∧
        RoomWF room')) ∧
    (alookup "R" (graceFire "R" w1State).1.rooms = none ∨
      (∃ room', alookup "R" (graceFire "R" w1State).1.rooms = some room' ∧ RoomWF room')) ∧
    (∃ room', alookup "R" (leaveRoom wGuestSock "R" wState).1.rooms = some room' ∧
      (alookup "s2" room'.quizState.scores).isSome = true ∧
      ∀ q ∈ room'.players, q.id ≠ "s2") := by
  have h1 := (c5_score_consistency wState (c4Sock "s7") "R" "B" "guest" wRoom).1
    (by decide) (by decide) (by decide) (by decide) (by decide)
  have h2 := (c5_score_consistency wState (c4Sock "s7") "R" "B" "guest" wRoom).2.1
    ({ id := "s2", name := "B", role := "guest", ready := false })
    (by decide) (by decide) (by decide) (by decide) (by decide) (by decide) (by decide)
  have h3 := (c5_score_consistency wState wGuestSock "R" "B" "guest" wRoom).2.2.1
    (by decide) (by decide) (by decide) (by decide)
  have h4 := (c5_score_consistency w1State wGuestSock "R" "A" "owner" wRoom).2.2.2.1
    ({ ownerName := some "A" }) ({ id := "s1", name := "A", role := "owner", ready := false })
    ([{ id := "s2", name := "B", role := "guest", ready := false }])
    (by decide) (by decide) (by decide) (by decide)
  have h5 := (c5_score_consistency wState wGuestSock "R" "B" "guest" wRoom).2.2.2.2
    (by decide) (by decide) (by decide) (by decide) (by decide)
  exact ⟨h1, h2, h3, h4, h5⟩
